import Mathlib

/-
Verification of the Monkey interpreter (go-monkey): a shallow embedding of
the token model, AST, runtime object model, environment, Pratt parser and
tree-walking evaluator, followed by theorems about the embedded code.

Modelling conventions, used throughout:

- Go maps (the AST hash-literal pairs, the runtime hash object, the
  environment store) have an unspecified iteration order.  Map CONTENTS are
  embedded as association lists kept in insertion order; every place the Go
  code ranges over a map, the model consumes a caller-supplied reordering
  function (a "chooser").  A chooser is a legal behaviour of the Go runtime
  exactly when it permutes its input; theorems either quantify over choosers
  or state the permutation fact for the concrete instance used.
- Go runtime panics (index out of range, integer divide by zero, the macro
  expander panic) are embedded as an explicit Interrupt, not as Monkey
  Error values, matching the sharp distinction the code draws.
- The evaluator and parser recurse non-structurally in Go; the embedding
  adds an explicit fuel parameter.  Fuel exhaustion is a model artifact and
  is kept distinct from every real outcome.
- Go interface pointer equality (used by the == and != operators outside
  the integer and string cases) is determined by the value model only for
  values of different dynamic kinds and for the singleton objects TRUE,
  FALSE and NULL; any other comparison answers with the Interrupt undet.
  The evaluator only ever allocates booleans and null through the
  singletons, so this covers every comparison the claims touch.
- The environment is threaded functionally.  Go mutates environments
  through pointers; the functional threading agrees with Go on every
  program that does not mutate an already captured frame, which covers all
  programs appearing in the theorems below.
- The puts builtin writes to standard output in Go; the model returns NULL
  and drops the output.
-/

namespace GoMonkey

/-! ## Token model (token/token.go) -/

/-- TokenType is a string in the Go source. -/
abbrev TokenType := String

/-- Token is the pair of a token type and the source lexeme. -/
structure Token where
  type : TokenType
  literal : String
  deriving DecidableEq, Repr

namespace token

def ILLEGAL : TokenType := "ILLEGAL"
def EOF : TokenType := "EOF"
def IDENT : TokenType := "IDENT"
def INT : TokenType := "INT"
def STRING : TokenType := "STRING"
def ASSIGN : TokenType := "="
def PLUS : TokenType := "+"
def MINUS : TokenType := "-"
def BANG : TokenType := "!"
def ASTERISK : TokenType := "*"
def SLASH : TokenType := "/"
def LT : TokenType := "<"
def GT : TokenType := ">"
def EQ : TokenType := "=="
def NOT_EQ : TokenType := "!="
def COMMA : TokenType := ","
def SEMICOLON : TokenType := ";"
def COLON : TokenType := ":"
def LPAREN : TokenType := "("
def RPAREN : TokenType := ")"
def LBRACE : TokenType := "\x7b"
def RBRACE : TokenType := "\x7d"
def LBRACKET : TokenType := "["
def RBRACKET : TokenType := "]"
def FUNCTION : TokenType := "FUNCTION"
def LET : TokenType := "LET"
def TRUE : TokenType := "TRUE"
def FALSE : TokenType := "FALSE"
def IF : TokenType := "IF"
def ELSE : TokenType := "ELSE"
def RETURN : TokenType := "RETURN"
def MACRO_KW : TokenType := "MACRO"
def FOR : TokenType := "FOR"

end token

/-! ## AST model (ast/ast.go and the chapter 4 additions)

The Go AST is a family of pointer-based structs behind the Node, Statement
and Expression interfaces.  A nil pointer or nil interface value is
represented by the dedicated constructors nilE, nilS, nilB and nilNode.
The pairs of a HashLiteral are a Go map in the source
(map of Expression to Expression); the model stores the map contents as a
list in insertion order and applies a chooser wherever the code ranges
over the map. -/

/-- Identifier is the AST node for a name; it is also the parameter type of
function and macro literals. -/
structure Identifier where
  token : Token
  value : String
  deriving Repr

mutual

inductive Expression where
  | ident (i : Identifier)
  | intLit (token : Token) (value : Int)
  | strLit (token : Token) (value : String)
  | boolLit (token : Token) (value : Bool)
  | prefixE (token : Token) (operator : String) (right : Expression)
  | infixE (token : Token) (left : Expression) (operator : String) (right : Expression)
  | ifE (token : Token) (condition : Expression) (consequence : Block)
        (alternative : Option Block)
  | funcLit (token : Token) (parameters : List Identifier) (body : Block)
  | callE (token : Token) (function : Expression) (arguments : List Expression)
  | arrayLit (token : Token) (elements : List Expression)
  | indexE (token : Token) (left : Expression) (index : Expression)
  | hashLit (token : Token) (pairs : List (Expression × Expression))
  | macroLit (token : Token) (parameters : List Identifier) (body : Block)
  | forE (token : Token) (ini : Option Statement) (condition : Option Expression)
        (update : Option Statement) (body : Block)
  | nilE

inductive Statement where
  | letS (token : Token) (name : Identifier) (value : Expression)
  | returnS (token : Token) (returnValue : Expression)
  | exprS (token : Token) (expression : Expression)
  | blockS (b : Block)
  | nilS

inductive Block where
  | mk (token : Token) (statements : List Statement)
  | nilB

end

/-- Program is the root node: a list of statements. -/
structure Program where
  statements : List Statement

/-- Node mirrors the Go ast.Node interface: a program, a statement or an
expression, or a nil interface value. -/
inductive Node where
  | prog (p : Program)
  | stmt (s : Statement)
  | expr (e : Expression)
  | nilNode

/-- TokenLiteral of an expression returns the literal of the node token,
as each Go String and TokenLiteral method does.  A nil expression gives the
empty string (calling it in Go would fault; no verified path does). -/
def Expression.tokenLiteral : Expression → String
  | .ident i => i.token.literal
  | .intLit tok _ => tok.literal
  | .strLit tok _ => tok.literal
  | .boolLit tok _ => tok.literal
  | .prefixE tok _ _ => tok.literal
  | .infixE tok _ _ _ => tok.literal
  | .ifE tok _ _ _ => tok.literal
  | .funcLit tok _ _ => tok.literal
  | .callE tok _ _ => tok.literal
  | .arrayLit tok _ => tok.literal
  | .indexE tok _ _ => tok.literal
  | .hashLit tok _ => tok.literal
  | .macroLit tok _ _ => tok.literal
  | .forE tok _ _ _ _ => tok.literal
  | .nilE => ""

/-- Projection of a Node onto Expression, modelling the Go type assertion
with a blank error target: failure produces the nil expression. -/
def Node.asExpression : Node → Expression
  | .expr e => e
  | _ => .nilE

/-- Projection of a Node onto Statement, modelling the Go type assertion
with a blank error target: failure produces the nil statement. -/
def Node.asStatement : Node → Statement
  | .stmt s => s
  | _ => .nilS

/-- Projection of a Node onto Block, modelling the Go type assertion with a
blank error target: failure produces the nil block. -/
def Node.asBlock : Node → Block
  | .stmt (.blockS b) => b
  | _ => .nilB

/-! ## Object model (object/object.go) -/

namespace object

def NULL_OBJ : String := "NULL"
def ERROR_OBJ : String := "ERROR"
def INTEGER_OBJ : String := "INTEGER"
def BOOLEAN_OBJ : String := "BOOLEAN"
def STRING_OBJ : String := "STRING"
def RETURN_VALUE_OBJ : String := "RETURN_VALUE"
def FUNCTION_OBJ : String := "FUNCTION"
def BUILTIN_OBJ : String := "BUILTIN"
def ARRAY_OBJ : String := "ARRAY"
def HASH_OBJ : String := "HASH"
def QUOTE_OBJ : String := "QUOTE"
def MACRO_OBJ : String := "MACRO"

end object

/-- HashKey is the pair of an object type and a 64-bit digest; the digest
is a natural number kept below 2 to the 64. -/
structure HashKey where
  type : String
  value : Nat
  deriving DecidableEq, Repr

/-- BuiltinTag names one of the six native functions held in the builtins
table; the Go source stores them as closures, the model dispatches on the
tag. -/
inductive BuiltinTag where
  | lenB | putsB | firstB | lastB | restB | pushB
  deriving DecidableEq, Repr

mutual

/-- Object is the runtime value model.  The hash pairs of hashObj mirror
the Go map from HashKey to HashPair: the list holds the map contents in
insertion order and a chooser reorders it wherever the code ranges over
the map.  goNilObj is the nil Go interface value that Eval returns for
statements with no result. -/
inductive Object where
  | integer (value : Int)
  | boolean (value : Bool)
  | strObj (value : String)
  | nullObj
  | returnValue (value : Object)
  | errorObj (message : String)
  | function (parameters : List Identifier) (body : Block) (env : Env)
  | builtin (tag : BuiltinTag)
  | arrayObj (elements : List Object)
  | hashObj (pairs : List (HashKey × Object × Object))
  | quoteObj (node : Node)
  | macroObj (parameters : List Identifier) (body : Block) (env : Env)
  | goNilObj

/-- Env is the lexical environment: a binding store and an optional outer
environment, as in object/environment.go. -/
inductive Env where
  | mk (store : List (String × Object)) (outer : Option Env)

end

/-- Type returns the object type tag string of each variant.  The Go nil
interface has no type; the model gives it a tag no real object carries
(the code only queries Type after a nil check). -/
def Object.type : Object → String
  | .integer _ => object.INTEGER_OBJ
  | .boolean _ => object.BOOLEAN_OBJ
  | .strObj _ => object.STRING_OBJ
  | .nullObj => object.NULL_OBJ
  | .returnValue _ => object.RETURN_VALUE_OBJ
  | .errorObj _ => object.ERROR_OBJ
  | .function _ _ _ => object.FUNCTION_OBJ
  | .builtin _ => object.BUILTIN_OBJ
  | .arrayObj _ => object.ARRAY_OBJ
  | .hashObj _ => object.HASH_OBJ
  | .quoteObj _ => object.QUOTE_OBJ
  | .macroObj _ _ _ => object.MACRO_OBJ
  | .goNilObj => "GO_NIL"

/-! ### Hash keys (the Hashable interface) -/

/-- Modulus of unsigned 64-bit arithmetic. -/
def uint64Mod : Nat := 2 ^ 64

/-- HashKey of an Integer: the value reinterpreted as unsigned 64-bit. -/
def integerHashKey (v : Int) : HashKey :=
  ⟨object.INTEGER_OBJ, (v % (uint64Mod : Int)).toNat⟩

/-- HashKey of a Boolean: 1 for true, 0 for false. -/
def booleanHashKey (b : Bool) : HashKey :=
  ⟨object.BOOLEAN_OBJ, if b then 1 else 0⟩

def fnv64OffsetBasis : Nat := 14695981039346656037

def fnv64Prime : Nat := 1099511628211

/-- FNV-1a 64-bit digest over a byte sequence, as hash/fnv computes it. -/
def fnv1a64 (bytes : List UInt8) : Nat :=
  bytes.foldl (fun h b => ((h ^^^ b.toNat) * fnv64Prime) % uint64Mod) fnv64OffsetBasis

/-- HashKey of a String: FNV-1a 64-bit over the raw bytes. -/
def stringHashKey (s : String) : HashKey :=
  ⟨object.STRING_OBJ, fnv1a64 s.toUTF8.toList⟩

/-- Hashable interface lookup: Integer, Boolean and String implement
HashKey; every other object kind does not. -/
def Object.hashKeyOf : Object → Option HashKey
  | .integer v => some (integerHashKey v)
  | .boolean b => some (booleanHashKey b)
  | .strObj s => some (stringHashKey s)
  | _ => none

/-- Lookup in the hash pair map by HashKey. -/
def hashPairsGet : List (HashKey × Object × Object) → HashKey → Option (Object × Object)
  | [], _ => none
  | (k, pair) :: rest, key => if k = key then some pair else hashPairsGet rest key

/-- Map update by HashKey: replace the pair stored under an existing key,
append otherwise (Go map assignment). -/
def hashPairsSet : List (HashKey × Object × Object) → HashKey → Object × Object →
    List (HashKey × Object × Object)
  | [], key, pair => [(key, pair)]
  | (k, old) :: rest, key, pair =>
      if k = key then (key, pair) :: rest else (k, old) :: hashPairsSet rest key pair

/-! ### Environment operations (object/environment.go) -/

/-- Lookup in a binding store (a Go map used only through Get and Set). -/
def assocGet : List (String × Object) → String → Option Object
  | [], _ => none
  | (k, v) :: rest, name => if k = name then some v else assocGet rest name

/-- Update of a binding store: replace an existing binding, append a new
one (Go map assignment). -/
def assocSet : List (String × Object) → String → Object → List (String × Object)
  | [], name, val => [(name, val)]
  | (k, v) :: rest, name, val =>
      if k = name then (name, val) :: rest else (k, v) :: assocSet rest name val

/-- Get walks outward through the environment chain until the name is
found or the root is exhausted. -/
def Env.get : Env → String → Option Object
  | .mk store outer, name =>
      match assocGet store name with
      | some v => some v
      | none =>
          match outer with
          | some o => o.get name
          | none => none

/-- Set binds a name in the current frame only. -/
def Env.set : Env → String → Object → Env
  | .mk store outer, name, val => .mk (assocSet store name val) outer

/-- NewEnvironment is the empty root environment. -/
def NewEnvironment : Env := .mk [] none

/-- NewEnclosedEnvironment wraps an outer environment with a fresh empty
frame. -/
def NewEnclosedEnvironment (outer : Env) : Env := .mk [] (some outer)

/-! ### AST printing (the String methods of ast/ast.go)

The parameter dp reorders the rendered key:value strings of a hash
literal, modelling the unspecified order in which the String method of
HashLiteral ranges over its pair map.  All other nodes print their
children in a fixed order. -/

/-- Parameters print by their String method, which is the bare name. -/
def displayIdentList : List Identifier → List String
  | [] => []
  | i :: rest => i.value :: displayIdentList rest

mutual

/-- String method of each expression variant. -/
def displayExpr (dp : List String → List String) : Expression → String
  | .ident i => i.value
  | .intLit tok _ => tok.literal
  | .strLit tok _ => tok.literal
  | .boolLit tok _ => tok.literal
  | .prefixE _ op right => "(" ++ op ++ displayExpr dp right ++ ")"
  | .infixE _ left op right =>
      "(" ++ displayExpr dp left ++ " " ++ op ++ " " ++ displayExpr dp right ++ ")"
  | .ifE _ cond cons alt =>
      "if" ++ displayExpr dp cond ++ " " ++ displayBlock dp cons ++
        (match alt with
         | some a => "else " ++ displayBlock dp a
         | none => "")
  | .funcLit tok params body =>
      tok.literal ++ "(" ++ String.intercalate ", " (displayIdentList params) ++ ") " ++
        displayBlock dp body
  | .callE _ fn args =>
      displayExpr dp fn ++ "(" ++ String.intercalate ", " (displayExprList dp args) ++ ")"
  | .arrayLit _ elems =>
      "[" ++ String.intercalate ", " (displayExprList dp elems) ++ "]"
  | .indexE _ left index =>
      "(" ++ displayExpr dp left ++ "[" ++ displayExpr dp index ++ "])"
  | .hashLit _ pairs =>
      "\x7b" ++ String.intercalate ", " (dp (displayHashPairs dp pairs)) ++ "\x7d"
  | .macroLit tok params body =>
      tok.literal ++ "(" ++ String.intercalate ", " (displayIdentList params) ++ ") " ++
        displayBlock dp body
  | .forE tok _ _ _ _ => tok.literal
  | .nilE => ""

/-- String method of each statement variant.  Let and Return skip a nil
value expression, as the Go methods check for nil. -/
def displayStmt (dp : List String → List String) : Statement → String
  | .letS tok name value =>
      tok.literal ++ " " ++ name.value ++ " = " ++
        (match value with
         | .nilE => ""
         | v => displayExpr dp v) ++ ";"
  | .returnS tok value =>
      tok.literal ++ " " ++
        (match value with
         | .nilE => ""
         | v => displayExpr dp v) ++ ";"
  | .exprS _ e =>
      match e with
      | .nilE => ""
      | e => displayExpr dp e
  | .blockS b => displayBlock dp b
  | .nilS => ""

/-- String method of a block: the concatenation of its statements. -/
def displayBlock (dp : List String → List String) : Block → String
  | .mk _ stmts => String.join (displayStmtList dp stmts)
  | .nilB => ""

def displayExprList (dp : List String → List String) : List Expression → List String
  | [] => []
  | e :: rest => displayExpr dp e :: displayExprList dp rest

def displayStmtList (dp : List String → List String) : List Statement → List String
  | [] => []
  | s :: rest => displayStmt dp s :: displayStmtList dp rest

/-- Rendered key:value strings of a hash literal, in stored order. -/
def displayHashPairs (dp : List String → List String) :
    List (Expression × Expression) → List String
  | [] => []
  | (k, v) :: rest => (displayExpr dp k ++ ":" ++ displayExpr dp v) :: displayHashPairs dp rest

end

/-- String method of the Program root and of the other nodes. -/
def displayNode (dp : List String → List String) : Node → String
  | .prog p => String.join (displayStmtList dp p.statements)
  | .stmt s => displayStmt dp s
  | .expr e => displayExpr dp e
  | .nilNode => ""

/-! ### Inspect (the Inspect methods of object/object.go)

The parameter dp reorders the rendered "key: value" strings of a Hash,
modelling the unspecified order in which Inspect ranges over the pair
map; the same parameter feeds the AST printer used for function bodies
and quoted nodes. -/

mutual

/-- Inspect method of each object variant. -/
def inspectObj (dp : List String → List String) : Object → String
  | .integer v => toString v
  | .boolean b => if b then "true" else "false"
  | .strObj s => s
  | .nullObj => "null"
  | .returnValue v => inspectObj dp v
  | .errorObj msg => "ERROR: " ++ msg
  | .function params body _ =>
      "fn" ++ "(" ++ String.intercalate ", " (displayIdentList params) ++ ") \x7b\n" ++
        displayBlock dp body ++ "\n\x7d"
  | .builtin _ => "builtin function"
  | .arrayObj elems =>
      "[" ++ String.intercalate ", " (inspectList dp elems) ++ "]"
  | .hashObj pairs =>
      "\x7b" ++ String.intercalate ", " (dp (inspectHashPairs dp pairs)) ++ "\x7d"
  | .quoteObj node => "QUOTE(" ++ displayNode dp node ++ ")"
  | .macroObj params body _ =>
      "macro" ++ "(" ++ String.intercalate ", " (displayIdentList params) ++ ") \x7b\n" ++
        displayBlock dp body ++ "\n\x7d"
  | .goNilObj => ""

def inspectList (dp : List String → List String) : List Object → List String
  | [] => []
  | o :: rest => inspectObj dp o :: inspectList dp rest

/-- Rendered "key: value" strings of a hash object, in stored order; the
stored key object is printed, not the digest. -/
def inspectHashPairs (dp : List String → List String) :
    List (HashKey × Object × Object) → List String
  | [] => []
  | (_, k, v) :: rest =>
      (inspectObj dp k ++ ": " ++ inspectObj dp v) :: inspectHashPairs dp rest

end

/-! ## Evaluator (the evaluator package): interrupts and pure helpers -/

/-- Interrupt is everything that stops the Go program without producing a
Monkey value: a runtime panic, the fuel artifact of the model, and a
pointer comparison the value model cannot decide. -/
inductive Interrupt where
  | goPanic (message : String)
  | fuelOut
  | undet
  deriving DecidableEq, Repr

/-- EvalM is the result monad of the embedded evaluator. -/
abbrev EvalM (α : Type) := Except Interrupt α

/-- PairChooser reorders the pair list of an AST hash literal, modelling
one unspecified Go map iteration order.  It is a legal behaviour exactly
when it permutes its input. -/
abbrev PairChooser := List (Expression × Expression) → List (Expression × Expression)

/-- Singleton NULL object. -/
def NULL : Object := .nullObj

/-- Singleton TRUE object. -/
def TRUE : Object := .boolean true

/-- Singleton FALSE object. -/
def FALSE : Object := .boolean false

/-- Conversion of a host boolean to the shared singletons. -/
def nativeBoolToBooleanObject (input : Bool) : Object :=
  if input then TRUE else FALSE

/-- Construction of an Error object; the Go helper formats the message,
the model receives it already formatted. -/
def newError (message : String) : Object := .errorObj message

/-- IsError checks for the ERROR type after a nil check; the nil object
is not an error. -/
def isError : Object → Bool
  | .errorObj _ => true
  | _ => false

/-- IsTruthy: NULL and FALSE are falsy, every other object is truthy.
The Go switch compares against the three singletons. -/
def isTruthy : Object → Bool
  | .nullObj => false
  | .boolean b => b
  | _ => true

/-- Pointer equality of two Go interface values, as far as the value model
determines it: values of different dynamic kinds are never identical, and
booleans and null are allocated only as the three singletons, so identity
on them is value equality.  Identity of two same-kind heap values is not
determined by the values and answers undet; no verified path reaches it. -/
def ptrEq (l r : Object) : EvalM Bool :=
  if l.type ≠ r.type then pure false
  else
    match l, r with
    | .boolean a, .boolean b => pure (a == b)
    | .nullObj, .nullObj => pure true
    | .goNilObj, .goNilObj => pure true
    | _, _ => throw .undet

/-- Signed 64-bit wraparound, the overflow behaviour of Go int64
arithmetic. -/
def wrap64 (n : Int) : Int := (n + 2 ^ 63) % 2 ^ 64 - 2 ^ 63

/-- Value of an Integer object (the Go type assertion). -/
def Object.asIntegerValue : Object → Option Int
  | .integer v => some v
  | _ => none

/-- Value of a String object (the Go type assertion). -/
def Object.asStringValue : Object → Option String
  | .strObj s => some s
  | _ => none

/-- Bang operator: the singletons TRUE, FALSE, NULL map to FALSE, TRUE,
TRUE; every other value maps to FALSE. -/
def evalBangOperatorExpressionF : Object → Object
  | .boolean true => FALSE
  | .boolean false => TRUE
  | .nullObj => TRUE
  | _ => FALSE

/-- Minus prefix operator: negate an Integer (with int64 wraparound);
any other kind is an unknown operator error. -/
def evalMinusPrefixOperatorExpressionF (right : Object) : Object :=
  if right.type ≠ object.INTEGER_OBJ then
    newError ("unknown operator: -" ++ right.type)
  else
    match right.asIntegerValue with
    | some v => .integer (wrap64 (-v))
    | none => newError ("unknown operator: -" ++ right.type)

/-- Prefix dispatch on the operator string. -/
def evalPrefixExpressionF (operator : String) (right : Object) : Object :=
  if operator = "!" then evalBangOperatorExpressionF right
  else if operator = "-" then evalMinusPrefixOperatorExpressionF right
  else newError ("unknown operator: " ++ operator ++ right.type)

/-- Integer infix operators.  Division truncates toward zero and panics on
a zero divisor, as Go division does; + - * / wrap at 64 bits. -/
def evalIntegerInfixExpressionF (operator : String) (left right : Object) : EvalM Object :=
  match left.asIntegerValue, right.asIntegerValue with
  | some leftVal, some rightVal =>
      if operator = "+" then pure (.integer (wrap64 (leftVal + rightVal)))
      else if operator = "-" then pure (.integer (wrap64 (leftVal - rightVal)))
      else if operator = "*" then pure (.integer (wrap64 (leftVal * rightVal)))
      else if operator = "/" then
        if rightVal = 0 then throw (.goPanic "runtime error: integer divide by zero")
        else pure (.integer (wrap64 (Int.tdiv leftVal rightVal)))
      else if operator = "<" then pure (nativeBoolToBooleanObject (decide (leftVal < rightVal)))
      else if operator = ">" then pure (nativeBoolToBooleanObject (decide (leftVal > rightVal)))
      else if operator = "==" then pure (nativeBoolToBooleanObject (decide (leftVal = rightVal)))
      else if operator = "!=" then pure (nativeBoolToBooleanObject (decide (leftVal ≠ rightVal)))
      else pure (newError ("unknown operator: " ++ left.type ++ " " ++ operator ++ " " ++ right.type))
  | _, _ => throw (.goPanic "interface conversion")

/-- String infix operators: only + (concatenation) is defined. -/
def evalStringInfixExpressionF (operator : String) (left right : Object) : EvalM Object :=
  if operator ≠ "+" then
    pure (newError ("unknown operator: " ++ left.type ++ " " ++ operator ++ " " ++ right.type))
  else
    match left.asStringValue, right.asStringValue with
    | some leftVal, some rightVal => pure (.strObj (leftVal ++ rightVal))
    | _, _ => throw (.goPanic "interface conversion")

/-- Infix dispatch, in the source case order: both Integer; both String;
operator ==; operator !=; kinds differ (type mismatch); otherwise unknown
operator.  The == and != cases compare pointers and come BEFORE the
type-mismatch case. -/
def evalInfixExpressionF (operator : String) (left right : Object) : EvalM Object :=
  if left.type = object.INTEGER_OBJ ∧ right.type = object.INTEGER_OBJ then
    evalIntegerInfixExpressionF operator left right
  else if left.type = object.STRING_OBJ ∧ right.type = object.STRING_OBJ then
    evalStringInfixExpressionF operator left right
  else if operator = "==" then do
    pure (nativeBoolToBooleanObject (← ptrEq left right))
  else if operator = "!=" then do
    pure (nativeBoolToBooleanObject (!(← ptrEq left right)))
  else if left.type ≠ right.type then
    pure (newError ("type mismatch: " ++ left.type ++ " " ++ operator ++ " " ++ right.type))
  else
    pure (newError ("unknown operator: " ++ left.type ++ " " ++ operator ++ " " ++ right.type))

/-! ### Builtin functions (builtins.go) -/

/-- Builtin len: byte length of a String or element count of an Array. -/
def builtinLen : List Object → Object
  | [.arrayObj elems] => .integer (elems.length : Int)
  | [.strObj s] => .integer (s.utf8ByteSize : Int)
  | [other] => newError ("argument to `len` not supported, got " ++ other.type)
  | args => newError ("wrong number of arguments. got=" ++ toString args.length ++ ", want=1")

/-- Builtin first: head of an Array, NULL when empty. -/
def builtinFirst : List Object → Object
  | [.arrayObj (e :: _)] => e
  | [.arrayObj []] => NULL
  | [other] => newError ("argument to `first` must be ARRAY, got " ++ other.type)
  | args => newError ("wrong number of arguments. got=" ++ toString args.length ++ ", want=1")

/-- Builtin last: last element of an Array, NULL when empty. -/
def builtinLast : List Object → Object
  | [.arrayObj elems] =>
      match elems.getLast? with
      | some e => e
      | none => NULL
  | [other] => newError ("argument to `last` must be ARRAY, got " ++ other.type)
  | args => newError ("wrong number of arguments. got=" ++ toString args.length ++ ", want=1")

/-- Builtin rest: fresh Array of the elements after the first, NULL when
the input is empty.  The Go code copies into a new slice; the copy is the
list tail. -/
def builtinRest : List Object → Object
  | [.arrayObj (_ :: tl)] => .arrayObj tl
  | [.arrayObj []] => NULL
  | [other] => newError ("argument to `rest` must be ARRAY, got " ++ other.type)
  | args => newError ("wrong number of arguments. got=" ++ toString args.length ++ ", want=1")

/-- Builtin push: fresh Array of the original elements followed by the
new one.  The Go code allocates a slice of length+1, copies the original
elements and writes the new element at the end, leaving the input slice
untouched; the result is the list append. -/
def builtinPush : List Object → Object
  | [.arrayObj elems, x] => .arrayObj (elems ++ [x])
  | [other, _] => newError ("argument to `push` must be ARRAY, got " ++ other.type)
  | args => newError ("wrong number of arguments. got=" ++ toString args.length ++ ", want=2")

/-- Dispatch from a builtin tag to its native function.  The puts builtin
prints its arguments in Go; the model drops the output and returns NULL. -/
def applyBuiltinFn : BuiltinTag → List Object → Object
  | .lenB, args => builtinLen args
  | .putsB, _ => NULL
  | .firstB, args => builtinFirst args
  | .lastB, args => builtinLast args
  | .restB, args => builtinRest args
  | .pushB, args => builtinPush args

/-- The builtins table consulted by identifier lookup. -/
def builtinsLookup (name : String) : Option Object :=
  if name = "len" then some (.builtin .lenB)
  else if name = "puts" then some (.builtin .putsB)
  else if name = "first" then some (.builtin .firstB)
  else if name = "last" then some (.builtin .lastB)
  else if name = "rest" then some (.builtin .restB)
  else if name = "push" then some (.builtin .pushB)
  else none

/-- Identifier evaluation: environment chain first, then the builtins
table, then an identifier-not-found error. -/
def evalIdentifierF (node : Identifier) (env : Env) : Object :=
  match env.get node.value with
  | some val => val
  | none =>
      match builtinsLookup node.value with
      | some b => b
      | none => newError ("identifier not found: " ++ node.value)

/-! ### Indexing helpers -/

/-- Array indexing: NULL outside 0 .. length-1, the element otherwise.
The getD default is unreachable under the bounds guard. -/
def evalArrayIndexExpressionF (array index : Object) : EvalM Object :=
  match array, index with
  | .arrayObj elems, .integer idx =>
      let mx : Int := (elems.length : Int) - 1
      if idx < 0 ∨ idx > mx then pure NULL
      else pure (elems.getD idx.toNat NULL)
  | _, _ => throw (.goPanic "interface conversion")

/-- Hash indexing: error for a non-hashable key, NULL for a missing key,
the stored value otherwise. -/
def evalHashIndexExpressionF (hash index : Object) : EvalM Object :=
  match hash with
  | .hashObj pairs =>
      match index.hashKeyOf with
      | none => pure (newError ("unusable as hash key: " ++ index.type))
      | some key =>
          match hashPairsGet pairs key with
          | some (_, v) => pure v
          | none => pure NULL
  | _ => throw (.goPanic "interface conversion")

/-- Index dispatch: Array by Integer, any Hash, otherwise unsupported. -/
def evalIndexExpressionF (left index : Object) : EvalM Object :=
  if left.type = object.ARRAY_OBJ ∧ index.type = object.INTEGER_OBJ then
    evalArrayIndexExpressionF left index
  else if left.type = object.HASH_OBJ then
    evalHashIndexExpressionF left index
  else
    pure (newError ("index operator not supported: " ++ left.type))

/-! ### Function application helpers -/

/-- Unwrap a ReturnValue wrapper, pass every other object through. -/
def unwrapReturnValueF : Object → Object
  | .returnValue v => v
  | obj => obj

/-- Positional parameter binding.  The Go loops in extendFunctionEnv and
extendMacroEnv index args by the parameter position; consuming the two
lists together performs the same accesses, and the out-of-range panic
fires exactly when the position reaches the argument count. -/
def bindParamsByPosition : Env → List Identifier → List Object → EvalM Env
  | env, [], _ => pure env
  | _, _ :: _, [] => throw (.goPanic "runtime error: index out of range")
  | env, p :: ps, a :: as => bindParamsByPosition (env.set p.value a) ps as

/-- ExtendFunctionEnv: a fresh frame over the captured environment with
the parameters bound by position; unchecked arity. -/
def extendFunctionEnvF (parameters : List Identifier) (fnEnv : Env)
    (args : List Object) : EvalM Env :=
  bindParamsByPosition (NewEnclosedEnvironment fnEnv) parameters args

/-- ExtendMacroEnv: a fresh frame over the captured macro environment with
the parameters bound by position to the quoted arguments. -/
def extendMacroEnvF (parameters : List Identifier) (mEnv : Env)
    (quotedArgs : List Object) : EvalM Env :=
  bindParamsByPosition (NewEnclosedEnvironment mEnv) parameters quotedArgs

/-- QuoteArgs wraps each argument expression, unevaluated, in a Quote
object. -/
def quoteArgsF (arguments : List Expression) : List Object :=
  arguments.map (fun a => Object.quoteObj (Node.expr a))

/-- Short-circuit detector: evalExpressions signals an error by returning
a single-element list holding that error. -/
def singleErrorOf : List Object → Option Object
  | [a] => if isError a then some a else none
  | _ => none

/-- IsUnquoteCall: a call expression whose callee prints as unquote. -/
def isUnquoteCallF : Node → Bool
  | .expr (.callE _ fn _) => fn.tokenLiteral == "unquote"
  | _ => false

/-- ConvertObjectToASTNode: Integer and Boolean become fresh literal
nodes, a Quote yields its node, anything else the nil node. -/
def convertObjectToASTNodeF : Object → Node
  | .integer v => .expr (.intLit ⟨token.INT, toString v⟩ v)
  | .boolean b =>
      if b then .expr (.boolLit ⟨token.TRUE, "true"⟩ true)
      else .expr (.boolLit ⟨token.FALSE, "false"⟩ false)
  | .quoteObj node => node
  | _ => .nilNode

/-! ## The structural walker Modify (ast/modify.go)

Modify rewrites children bottom-up, then offers the node to the modifier.
The Go switch has cases for Program, ExpressionStatement, InfixExpression,
PrefixExpression, IndexExpression, IfExpression, BlockStatement,
ReturnStatement, LetStatement, FunctionLiteral, ArrayLiteral and
HashLiteral; every other node (identifiers, literals, call expressions,
macro literals) falls through and only the modifier is applied.  The
modifier may interrupt (the macro expander panics, the unquote modifier
evaluates), so the walker runs in EvalM; it receives fuel because the
modifier closures are not structurally smaller. -/

/-- Sentinel for the nil Identifier pointer a failed Go type assertion
stores into a parameter slot; unreachable for the modifiers in this
file, which never change identifier nodes. -/
def nilIdentifier : Identifier := ⟨⟨token.ILLEGAL, ""⟩, ""⟩

/-- Projection of a Node onto Identifier (Go type assertion with a blank
error target). -/
def Node.asIdentifier : Node → Identifier
  | .expr (.ident i) => i
  | _ => nilIdentifier

mutual

/-- Modify walks one node: children first (per the Go case list), then
the modifier. -/
def modifyF (ep : PairChooser) (modifier : Node → EvalM Node) :
    Nat → Node → EvalM Node
  | 0, _ => throw .fuelOut
  | fuel + 1, node =>
    match node with
    | .prog p => do
        let stmts ← modifyStmtListF ep modifier fuel p.statements
        modifier (.prog ⟨stmts⟩)
    | .stmt (.exprS tok e) => do
        let e2 ← modifyF ep modifier fuel (.expr e)
        modifier (.stmt (.exprS tok e2.asExpression))
    | .stmt (.returnS tok e) => do
        let e2 ← modifyF ep modifier fuel (.expr e)
        modifier (.stmt (.returnS tok e2.asExpression))
    | .stmt (.letS tok name value) => do
        let v2 ← modifyF ep modifier fuel (.expr value)
        modifier (.stmt (.letS tok name v2.asExpression))
    | .stmt (.blockS (.mk tok stmts)) => do
        let stmts2 ← modifyStmtListF ep modifier fuel stmts
        modifier (.stmt (.blockS (.mk tok stmts2)))
    | .stmt (.blockS .nilB) => throw (.goPanic "invalid memory address")
    | .expr (.infixE tok left op right) => do
        let l2 ← modifyF ep modifier fuel (.expr left)
        let r2 ← modifyF ep modifier fuel (.expr right)
        modifier (.expr (.infixE tok l2.asExpression op r2.asExpression))
    | .expr (.prefixE tok op right) => do
        let r2 ← modifyF ep modifier fuel (.expr right)
        modifier (.expr (.prefixE tok op r2.asExpression))
    | .expr (.indexE tok left index) => do
        let l2 ← modifyF ep modifier fuel (.expr left)
        let i2 ← modifyF ep modifier fuel (.expr index)
        modifier (.expr (.indexE tok l2.asExpression i2.asExpression))
    | .expr (.ifE tok cond cons alt) => do
        let c2 ← modifyF ep modifier fuel (.expr cond)
        let cons2 ← modifyF ep modifier fuel (.stmt (.blockS cons))
        match alt with
        | some a => do
            let a2 ← modifyF ep modifier fuel (.stmt (.blockS a))
            modifier (.expr (.ifE tok c2.asExpression cons2.asBlock (some a2.asBlock)))
        | none =>
            modifier (.expr (.ifE tok c2.asExpression cons2.asBlock none))
    | .expr (.funcLit tok params body) => do
        let params2 ← modifyIdentListF ep modifier fuel params
        let body2 ← modifyF ep modifier fuel (.stmt (.blockS body))
        modifier (.expr (.funcLit tok params2 body2.asBlock))
    | .expr (.arrayLit tok elems) => do
        let elems2 ← modifyExprListF ep modifier fuel elems
        modifier (.expr (.arrayLit tok elems2))
    | .expr (.hashLit tok pairs) => do
        let pairs2 ← modifyHashPairsF ep modifier fuel (ep pairs)
        modifier (.expr (.hashLit tok pairs2))
    | other => modifier other

def modifyStmtListF (ep : PairChooser) (modifier : Node → EvalM Node) :
    Nat → List Statement → EvalM (List Statement)
  | 0, _ => throw .fuelOut
  | _ + 1, [] => pure []
  | fuel + 1, s :: rest => do
      let s2 ← modifyF ep modifier fuel (.stmt s)
      let rest2 ← modifyStmtListF ep modifier fuel rest
      pure (s2.asStatement :: rest2)

def modifyExprListF (ep : PairChooser) (modifier : Node → EvalM Node) :
    Nat → List Expression → EvalM (List Expression)
  | 0, _ => throw .fuelOut
  | _ + 1, [] => pure []
  | fuel + 1, e :: rest => do
      let e2 ← modifyF ep modifier fuel (.expr e)
      let rest2 ← modifyExprListF ep modifier fuel rest
      pure (e2.asExpression :: rest2)

def modifyIdentListF (ep : PairChooser) (modifier : Node → EvalM Node) :
    Nat → List Identifier → EvalM (List Identifier)
  | 0, _ => throw .fuelOut
  | _ + 1, [] => pure []
  | fuel + 1, p :: rest => do
      let p2 ← modifyF ep modifier fuel (.expr (.ident p))
      let rest2 ← modifyIdentListF ep modifier fuel rest
      pure (p2.asIdentifier :: rest2)

/-- Hash literal pairs are rewritten in the iteration order the chooser
picked; the rebuilt map holds the rewritten pairs in that order. -/
def modifyHashPairsF (ep : PairChooser) (modifier : Node → EvalM Node) :
    Nat → List (Expression × Expression) → EvalM (List (Expression × Expression))
  | 0, _ => throw .fuelOut
  | _ + 1, [] => pure []
  | fuel + 1, (k, v) :: rest => do
      let k2 ← modifyF ep modifier fuel (.expr k)
      let v2 ← modifyF ep modifier fuel (.expr v)
      let rest2 ← modifyHashPairsF ep modifier fuel rest
      pure ((k2.asExpression, v2.asExpression) :: rest2)

end

/-! ## The evaluator core (evaluator.go, chapter 4 plus the appendix)

Every function takes fuel and consumes one unit per call; the environment
is threaded through the result.  evalN is Eval: dispatch on the node
variant.  The quote callee check happens before the callee is evaluated,
and quote reads the first argument without an arity check, as in the
source. -/

mutual

/-- Eval: the main dispatch of the tree-walking evaluator. -/
def evalN (ep : PairChooser) : Nat → Node → Env → EvalM (Object × Env)
  | 0, _, _ => throw .fuelOut
  | fuel + 1, node, env =>
    match node with
    | .prog p => evalProgramF ep fuel p.statements env
    | .stmt (.blockS b) => evalBlockStatementF ep fuel b env
    | .stmt (.exprS _ e) => evalN ep fuel (.expr e) env
    | .stmt (.returnS _ e) => do
        let (val, env) ← evalN ep fuel (.expr e) env
        if isError val then pure (val, env)
        else pure (Object.returnValue val, env)
    | .stmt (.letS _ name value) => do
        let (val, env) ← evalN ep fuel (.expr value) env
        if isError val then pure (val, env)
        else pure (Object.goNilObj, env.set name.value val)
    | .stmt .nilS => pure (.goNilObj, env)
    | .expr (.intLit _ v) => pure (.integer v, env)
    | .expr (.strLit _ v) => pure (.strObj v, env)
    | .expr (.boolLit _ v) => pure (nativeBoolToBooleanObject v, env)
    | .expr (.prefixE _ op right) => do
        let (r, env) ← evalN ep fuel (.expr right) env
        if isError r then pure (r, env)
        else pure (evalPrefixExpressionF op r, env)
    | .expr (.infixE _ left op right) => do
        let (l, env) ← evalN ep fuel (.expr left) env
        if isError l then pure (l, env) else do
        let (r, env) ← evalN ep fuel (.expr right) env
        if isError r then pure (r, env) else do
        let res ← evalInfixExpressionF op l r
        pure (res, env)
    | .expr (.ifE _ cond cons alt) => evalIfExpressionF ep fuel cond cons alt env
    | .expr (.ident i) => pure (evalIdentifierF i env, env)
    | .expr (.funcLit _ params body) => pure (.function params body env, env)
    | .expr (.callE _ fn arguments) =>
        if fn.tokenLiteral == "quote" then
          match arguments with
          | [] => throw (.goPanic "runtime error: index out of range")
          | a :: _ => do
              let q ← quoteF ep fuel a env
              pure (q, env)
        else do
          let (fnObj, env) ← evalN ep fuel (.expr fn) env
          if isError fnObj then pure (fnObj, env) else do
          let (args, env) ← evalExpressionsF ep fuel arguments env
          match singleErrorOf args with
          | some e => pure (e, env)
          | none => do
              let r ← applyFunctionF ep fuel fnObj args
              pure (r, env)
    | .expr (.arrayLit _ elements) => do
        let (elems, env) ← evalExpressionsF ep fuel elements env
        match singleErrorOf elems with
        | some e => pure (e, env)
        | none => pure (.arrayObj elems, env)
    | .expr (.indexE _ left index) => do
        let (l, env) ← evalN ep fuel (.expr left) env
        if isError l then pure (l, env) else do
        let (ix, env) ← evalN ep fuel (.expr index) env
        if isError ix then pure (ix, env) else do
        let r ← evalIndexExpressionF l ix
        pure (r, env)
    | .expr (.hashLit _ pairs) => evalHashLiteralF ep fuel (ep pairs) [] env
    | .expr (.macroLit _ _ _) => pure (.goNilObj, env)
    | .expr (.forE _ _ _ _ _) => pure (.goNilObj, env)
    | .expr .nilE => pure (.goNilObj, env)
    | .nilNode => pure (.goNilObj, env)

/-- EvalProgram: statements in order; a ReturnValue is unwrapped, an
Error is returned as-is, the last result otherwise. -/
def evalProgramF (ep : PairChooser) : Nat → List Statement → Env → EvalM (Object × Env)
  | 0, _, _ => throw .fuelOut
  | _ + 1, [], env => pure (.goNilObj, env)
  | fuel + 1, s :: rest, env => do
      let (result, env) ← evalN ep fuel (.stmt s) env
      match result with
      | .returnValue v => pure (v, env)
      | .errorObj m => pure (.errorObj m, env)
      | r =>
          match rest with
          | [] => pure (r, env)
          | _ :: _ => evalProgramF ep fuel rest env

/-- EvalBlockStatement on the block node. -/
def evalBlockStatementF (ep : PairChooser) : Nat → Block → Env → EvalM (Object × Env)
  | 0, _, _ => throw .fuelOut
  | fuel + 1, .mk _ stmts, env => evalBlockStmtsF ep fuel stmts env
  | _ + 1, .nilB, _ => throw (.goPanic "invalid memory address")

/-- EvalBlockStatement loop: statements in order; a non-nil result of
type RETURN_VALUE or ERROR is returned WITHOUT unwrapping, the last
result otherwise. -/
def evalBlockStmtsF (ep : PairChooser) : Nat → List Statement → Env → EvalM (Object × Env)
  | 0, _, _ => throw .fuelOut
  | _ + 1, [], env => pure (.goNilObj, env)
  | fuel + 1, s :: rest, env => do
      let (result, env) ← evalN ep fuel (.stmt s) env
      match result with
      | .goNilObj =>
          match rest with
          | [] => pure (.goNilObj, env)
          | _ :: _ => evalBlockStmtsF ep fuel rest env
      | r =>
          if r.type = object.RETURN_VALUE_OBJ ∨ r.type = object.ERROR_OBJ then pure (r, env)
          else
            match rest with
            | [] => pure (r, env)
            | _ :: _ => evalBlockStmtsF ep fuel rest env

/-- EvalIfExpression: condition, then the truthy branch, the alternative,
or NULL. -/
def evalIfExpressionF (ep : PairChooser) :
    Nat → Expression → Block → Option Block → Env → EvalM (Object × Env)
  | 0, _, _, _, _ => throw .fuelOut
  | fuel + 1, cond, cons, alt, env => do
      let (condition, env) ← evalN ep fuel (.expr cond) env
      if isError condition then pure (condition, env)
      else if isTruthy condition then evalN ep fuel (.stmt (.blockS cons)) env
      else
        match alt with
        | some a => evalN ep fuel (.stmt (.blockS a)) env
        | none => pure (NULL, env)

/-- EvalExpressions: left to right; on the first error the result is the
single-element list holding it, discarding earlier results. -/
def evalExpressionsF (ep : PairChooser) :
    Nat → List Expression → Env → EvalM (List Object × Env)
  | 0, _, _ => throw .fuelOut
  | _ + 1, [], env => pure ([], env)
  | fuel + 1, e :: rest, env => do
      let (evaluated, env) ← evalN ep fuel (.expr e) env
      if isError evaluated then pure ([evaluated], env)
      else do
        let (others, env) ← evalExpressionsF ep fuel rest env
        match singleErrorOf others with
        | some err => pure ([err], env)
        | none => pure (evaluated :: others, env)

/-- ApplyFunction: user function (extend, evaluate body, unwrap),
builtin (native call), otherwise a not-a-function error. -/
def applyFunctionF (ep : PairChooser) : Nat → Object → List Object → EvalM Object
  | 0, _, _ => throw .fuelOut
  | fuel + 1, fn, args =>
      match fn with
      | .function params body fnEnv => do
          let extendedEnv ← extendFunctionEnvF params fnEnv args
          let (evaluated, _) ← evalN ep fuel (.stmt (.blockS body)) extendedEnv
          pure (unwrapReturnValueF evaluated)
      | .builtin tag => pure (applyBuiltinFn tag args)
      | other => pure (newError ("not a function: " ++ other.type))

/-- EvalHashLiteral loop over the pairs in the order the chooser picked:
key, hashability check, value, insert; the first error wins. -/
def evalHashLiteralF (ep : PairChooser) :
    Nat → List (Expression × Expression) → List (HashKey × Object × Object) → Env →
      EvalM (Object × Env)
  | 0, _, _, _ => throw .fuelOut
  | _ + 1, [], acc, env => pure (.hashObj acc, env)
  | fuel + 1, (keyNode, valueNode) :: rest, acc, env => do
      let (key, env) ← evalN ep fuel (.expr keyNode) env
      if isError key then pure (key, env)
      else
        match key.hashKeyOf with
        | none => pure (newError ("unusable as hash key: " ++ key.type), env)
        | some hashed => do
            let (value, env) ← evalN ep fuel (.expr valueNode) env
            if isError value then pure (value, env)
            else evalHashLiteralF ep fuel rest (hashPairsSet acc hashed (key, value)) env

/-- Quote: rewrite the unquote calls inside the node, then wrap it. -/
def quoteF (ep : PairChooser) : Nat → Expression → Env → EvalM Object
  | 0, _, _ => throw .fuelOut
  | fuel + 1, node, env => do
      let n ← evalUnquoteCallsF ep fuel (.expr node) env
      pure (.quoteObj n)

/-- EvalUnquoteCalls: walk the quoted node with the unquote modifier. -/
def evalUnquoteCallsF (ep : PairChooser) : Nat → Node → Env → EvalM Node
  | 0, _, _ => throw .fuelOut
  | fuel + 1, quoted, env =>
      modifyF ep (fun node => unquoteModifier ep fuel node env) (fuel + 1) quoted

/-- The modifier passed to Modify by evalUnquoteCalls: an unquote call
with exactly one argument is replaced by the AST form of the evaluated
argument; every other node passes through. -/
def unquoteModifier (ep : PairChooser) : Nat → Node → Env → EvalM Node
  | 0, _, _ => throw .fuelOut
  | fuel + 1, node, env =>
      if !isUnquoteCallF node then pure node
      else
        match node with
        | .expr (.callE _ _ arguments) =>
            match arguments with
            | [arg] => do
                let (unquoted, _) ← evalN ep fuel (.expr arg) env
                pure (convertObjectToASTNodeF unquoted)
            | _ => pure node
        | _ => pure node

end

/-! ## The macro pass (macro_expansion.go) -/

/-- IsMacroDefinition: a let statement whose value is a macro literal. -/
def isMacroDefinitionF : Statement → Bool
  | .letS _ _ (.macroLit _ _ _) => true
  | _ => false

/-- AddMacro: build the Macro object (capturing the macro environment)
and bind it under the let name.  The non-definition case is unreachable
behind the isMacroDefinition guard. -/
def addMacroDefF (stmt : Statement) (env : Env) : Env :=
  match stmt with
  | .letS _ name (.macroLit _ params body) => env.set name.value (.macroObj params body env)
  | _ => env

/-- First pass of DefineMacros: record the index of every macro
definition and bind the macros, walking the statements in order. -/
def defineMacrosLoop : List Statement → Nat → Env → List Nat × Env
  | [], _, env => ([], env)
  | s :: rest, i, env =>
      if isMacroDefinitionF s then
        let env2 := addMacroDefF s env
        let (idxs, env3) := defineMacrosLoop rest (i + 1) env2
        (i :: idxs, env3)
      else defineMacrosLoop rest (i + 1) env

/-- DefineMacros: bind every top-level macro definition into the macro
environment and remove the recorded statements, highest index first so
the remaining indices stay valid. -/
def DefineMacrosF (program : Program) (env : Env) : Program × Env :=
  let (definitions, env2) := defineMacrosLoop program.statements 0 env
  let stmts := definitions.reverse.foldl (fun sts ix => sts.eraseIdx ix) program.statements
  (⟨stmts⟩, env2)

/-- IsMacroCall: the callee is an identifier and the identifier resolves
to a Macro object in the macro environment. -/
def isMacroCallF (fn : Expression) (env : Env) : Option (List Identifier × Block × Env) :=
  match fn with
  | .ident identifier =>
      match env.get identifier.value with
      | some (.macroObj params body mEnv) => some (params, body, mEnv)
      | _ => none
  | _ => none

/-- The modifier ExpandMacros passes to Modify: a macro call site is
replaced by the node the macro body evaluates to.  The arguments are
wrapped in Quote objects WITHOUT being evaluated; a body result that is
not a Quote panics. -/
def macroModifier (ep : PairChooser) (fuel : Nat) (env : Env) (node : Node) : EvalM Node :=
  match node with
  | .expr (.callE _ fn arguments) =>
      match isMacroCallF fn env with
      | none => pure node
      | some (params, body, mEnv) => do
          let args := quoteArgsF arguments
          let evalEnv ← extendMacroEnvF params mEnv args
          let (evaluated, _) ← evalN ep fuel (.stmt (.blockS body)) evalEnv
          match evaluated with
          | .quoteObj q => pure q
          | _ => throw (.goPanic "we only support returning AST-nodes from macros")
  | _ => pure node

/-- ExpandMacros: rewrite the program with the macro modifier. -/
def ExpandMacrosF (ep : PairChooser) (fuel : Nat) (program : Node) (env : Env) : EvalM Node :=
  modifyF ep (macroModifier ep fuel env) fuel program

/-! ## Parser (parser/parser.go)

The Pratt parser is embedded over an explicit token list; the lexer is
not needed by the claims, so parsers are fed token streams directly.
Each parse function threads a parser state and returns the nil node on
failure, as the Go methods return nil.  Fuel exhaustion (a model
artifact) records a marker message no real parse produces and yields the
nil node. -/

def LOWEST : Nat := 1
def EQUALS : Nat := 2
def LESSGREATER : Nat := 3
def SUM : Nat := 4
def PRODUCT : Nat := 5

/-- Precedence of the unary operators, named PREFIX in the source. -/
def PREFIXP : Nat := 6

def CALL : Nat := 7
def INDEX : Nat := 8

/-- The precedences table; tokens outside it have no entry. -/
def precedencesLookup (t : TokenType) : Option Nat :=
  if t = token.EQ then some EQUALS
  else if t = token.NOT_EQ then some EQUALS
  else if t = token.LT then some LESSGREATER
  else if t = token.GT then some LESSGREATER
  else if t = token.PLUS then some SUM
  else if t = token.MINUS then some SUM
  else if t = token.SLASH then some PRODUCT
  else if t = token.ASTERISK then some PRODUCT
  else if t = token.LPAREN then some CALL
  else if t = token.LBRACKET then some INDEX
  else none

/-- Token kinds with a registered prefix parse function. -/
def hasPrefixFn (t : TokenType) : Bool :=
  t = token.IDENT || t = token.INT || t = token.STRING || t = token.BANG ||
  t = token.MINUS || t = token.TRUE || t = token.FALSE || t = token.LPAREN ||
  t = token.IF || t = token.FUNCTION || t = token.LBRACKET || t = token.LBRACE ||
  t = token.MACRO_KW || t = token.FOR

/-- Token kinds with a registered infix parse function. -/
def hasInfixFn (t : TokenType) : Bool :=
  t = token.PLUS || t = token.MINUS || t = token.SLASH || t = token.ASTERISK ||
  t = token.EQ || t = token.NOT_EQ || t = token.LT || t = token.GT ||
  t = token.LPAREN || t = token.LBRACKET

/-- Token the lexer returns at and after the end of input. -/
def eofToken : Token := ⟨token.EOF, ""⟩

/-- Zero value of the Go Token struct, held before New advances twice. -/
def zeroToken : Token := ⟨"", ""⟩

/-- Parser state: the two-token window, the not-yet-read tokens, and the
accumulated error list. -/
structure ParserState where
  curToken : Token
  peekToken : Token
  upcoming : List Token
  errors : List String

/-- Advance the window: the lexer yields EOF forever past the end. -/
def ParserState.nextToken (p : ParserState) : ParserState :=
  { curToken := p.peekToken
    peekToken := p.upcoming.headD eofToken
    upcoming := p.upcoming.tail
    errors := p.errors }

/-- New: both window slots are filled by two advances. -/
def newParserFromTokens (tokens : List Token) : ParserState :=
  (ParserState.nextToken (ParserState.nextToken ⟨zeroToken, zeroToken, tokens, []⟩))

def ParserState.curTokenIs (p : ParserState) (t : TokenType) : Bool :=
  p.curToken.type = t

def ParserState.peekTokenIs (p : ParserState) (t : TokenType) : Bool :=
  p.peekToken.type = t

def ParserState.addError (p : ParserState) (msg : String) : ParserState :=
  { p with errors := p.errors ++ [msg] }

/-- PeekError formats the expectation failure message. -/
def ParserState.peekError (p : ParserState) (t : TokenType) : ParserState :=
  p.addError ("expected next token to be " ++ t ++ ", got " ++ p.peekToken.type ++ " instead")

/-- ExpectPeek advances on a match, records the error otherwise. -/
def ParserState.expectPeek (p : ParserState) (t : TokenType) : Bool × ParserState :=
  if p.peekTokenIs t then (true, p.nextToken) else (false, p.peekError t)

def ParserState.peekPrecedence (p : ParserState) : Nat :=
  (precedencesLookup p.peekToken.type).getD LOWEST

def ParserState.curPrecedence (p : ParserState) : Nat :=
  (precedencesLookup p.curToken.type).getD LOWEST

/-- Marker message recorded when the model runs out of parser fuel; no
real parse produces it. -/
def fuelMarker : String := "MODEL ARTIFACT: parser fuel exhausted"

/-- Modelled from strconv.ParseInt(literal, 0, 64) on the digit-only
literals the lexer emits: a plain decimal parse with the signed 64-bit
range check.  Signs and base prefixes never occur in an INT literal. -/
def goParseInt64 (s : String) : Option Int :=
  match s.toNat? with
  | some v => if v ≤ 2 ^ 63 - 1 then some (v : Int) else none
  | none => none

mutual

/-- ParseExpression: prefix dispatch, then the precedence loop. -/
def parseExpressionF : Nat → Nat → ParserState → Expression × ParserState
  | 0, _, p => (.nilE, p.addError fuelMarker)
  | fuel + 1, precedence, p =>
      if !hasPrefixFn p.curToken.type then
        (.nilE, p.addError ("no prefix parse function for " ++ p.curToken.type ++ " found"))
      else
        let (leftExp, p) := dispatchPrefixF fuel p
        parseExpressionLoopF fuel precedence leftExp p

/-- The Pratt loop: while the next token is not a semicolon and binds
strictly tighter than the minimum precedence, extend the left expression
with its infix parser. -/
def parseExpressionLoopF : Nat → Nat → Expression → ParserState → Expression × ParserState
  | 0, _, left, p => (left, p.addError fuelMarker)
  | fuel + 1, precedence, leftExp, p =>
      if !p.peekTokenIs token.SEMICOLON && precedence < p.peekPrecedence then
        if !hasInfixFn p.peekToken.type then (leftExp, p)
        else
          let p := p.nextToken
          let (leftExp2, p) := dispatchInfixF fuel leftExp p
          parseExpressionLoopF fuel precedence leftExp2 p
      else (leftExp, p)

/-- The registered prefix parse functions, dispatched on the current
token kind; callers guard with hasPrefixFn. -/
def dispatchPrefixF : Nat → ParserState → Expression × ParserState
  | 0, p => (.nilE, p.addError fuelMarker)
  | fuel + 1, p =>
      let t := p.curToken.type
      if t = token.IDENT then (.ident ⟨p.curToken, p.curToken.literal⟩, p)
      else if t = token.INT then parseIntegerLiteralF p
      else if t = token.STRING then (.strLit p.curToken p.curToken.literal, p)
      else if t = token.BANG || t = token.MINUS then parsePrefixExpressionF fuel p
      else if t = token.TRUE || t = token.FALSE then
        (.boolLit p.curToken (p.curTokenIs token.TRUE), p)
      else if t = token.LPAREN then parseGroupedExpressionF fuel p
      else if t = token.IF then parseIfExpressionF fuel p
      else if t = token.FUNCTION then parseFunctionLiteralF fuel p
      else if t = token.LBRACKET then parseArrayLiteralF fuel p
      else if t = token.LBRACE then parseHashLiteralF fuel p
      else if t = token.MACRO_KW then parseMacroLiteralF fuel p
      else if t = token.FOR then parseForExpressionF fuel p
      else (.nilE, p)

/-- The registered infix parse functions, dispatched on the operator now
under the cursor; callers guard with hasInfixFn. -/
def dispatchInfixF : Nat → Expression → ParserState → Expression × ParserState
  | 0, left, p => (left, p.addError fuelMarker)
  | fuel + 1, leftExp, p =>
      let t := p.curToken.type
      if t = token.LPAREN then parseCallExpressionF fuel leftExp p
      else if t = token.LBRACKET then parseIndexExpressionF fuel leftExp p
      else parseInfixExpressionF fuel leftExp p

/-- ParseIntegerLiteral: convert the literal, record an error and yield
nil when it does not fit int64. -/
def parseIntegerLiteralF : ParserState → Expression × ParserState
  | p =>
      match goParseInt64 p.curToken.literal with
      | some v => (.intLit p.curToken v, p)
      | none =>
          (.nilE, p.addError ("could not parse \"" ++ p.curToken.literal ++ "\" as integer"))

/-- ParsePrefixExpression: capture the operator, advance, parse the
operand at PREFIX precedence. -/
def parsePrefixExpressionF : Nat → ParserState → Expression × ParserState
  | 0, p => (.nilE, p.addError fuelMarker)
  | fuel + 1, p =>
      let tok := p.curToken
      let op := p.curToken.literal
      let p := p.nextToken
      let (right, p) := parseExpressionF fuel PREFIXP p
      (.prefixE tok op right, p)

/-- ParseInfixExpression: capture the operator and ITS precedence,
advance, parse the right operand at that precedence (left associativity
for equal precedences). -/
def parseInfixExpressionF : Nat → Expression → ParserState → Expression × ParserState
  | 0, left, p => (left, p.addError fuelMarker)
  | fuel + 1, leftExp, p =>
      let tok := p.curToken
      let op := p.curToken.literal
      let precedence := p.curPrecedence
      let p := p.nextToken
      let (right, p) := parseExpressionF fuel precedence p
      (.infixE tok leftExp op right, p)

/-- ParseGroupedExpression: parentheses group and leave no node. -/
def parseGroupedExpressionF : Nat → ParserState → Expression × ParserState
  | 0, p => (.nilE, p.addError fuelMarker)
  | fuel + 1, p =>
      let p := p.nextToken
      let (exp, p) := parseExpressionF fuel LOWEST p
      let (ok, p) := p.expectPeek token.RPAREN
      if ok then (exp, p) else (.nilE, p)

/-- ParseIfExpression. -/
def parseIfExpressionF : Nat → ParserState → Expression × ParserState
  | 0, p => (.nilE, p.addError fuelMarker)
  | fuel + 1, p =>
      let tok := p.curToken
      let (ok, p) := p.expectPeek token.LPAREN
      if !ok then (.nilE, p)
      else
        let p := p.nextToken
        let (cond, p) := parseExpressionF fuel LOWEST p
        let (ok, p) := p.expectPeek token.RPAREN
        if !ok then (.nilE, p)
        else
          let (ok, p) := p.expectPeek token.LBRACE
          if !ok then (.nilE, p)
          else
            let (cons, p) := parseBlockStatementF fuel p
            if p.peekTokenIs token.ELSE then
              let p := p.nextToken
              let (ok, p) := p.expectPeek token.LBRACE
              if !ok then (.nilE, p)
              else
                let (alt, p) := parseBlockStatementF fuel p
                (.ifE tok cond cons (some alt), p)
            else (.ifE tok cond cons none, p)

/-- ParseBlockStatement: statements until the closing brace or EOF. -/
def parseBlockStatementF : Nat → ParserState → Block × ParserState
  | 0, p => (.nilB, p.addError fuelMarker)
  | fuel + 1, p =>
      let tok := p.curToken
      let p := p.nextToken
      let (stmts, p) := parseBlockLoopF fuel p
      (.mk tok stmts, p)

def parseBlockLoopF : Nat → ParserState → List Statement × ParserState
  | 0, p => ([], p.addError fuelMarker)
  | fuel + 1, p =>
      if !p.curTokenIs token.RBRACE && !p.curTokenIs token.EOF then
        let (stmt, p) := parseStatementF fuel p
        let p := p.nextToken
        let (rest, p) := parseBlockLoopF fuel p
        match stmt with
        | .nilS => (rest, p)
        | s => (s :: rest, p)
      else ([], p)

/-- ParseFunctionLiteral. -/
def parseFunctionLiteralF : Nat → ParserState → Expression × ParserState
  | 0, p => (.nilE, p.addError fuelMarker)
  | fuel + 1, p =>
      let tok := p.curToken
      let (ok, p) := p.expectPeek token.LPAREN
      if !ok then (.nilE, p)
      else
        let (params, p) := parseFunctionParametersF fuel p
        let (ok, p) := p.expectPeek token.LBRACE
        if !ok then (.nilE, p)
        else
          let (body, p) := parseBlockStatementF fuel p
          (.funcLit tok params body, p)

/-- ParseFunctionParameters: a possibly empty comma-separated identifier
list closed by a right parenthesis; failure yields the nil (empty)
slice. -/
def parseFunctionParametersF : Nat → ParserState → List Identifier × ParserState
  | 0, p => ([], p.addError fuelMarker)
  | fuel + 1, p =>
      if p.peekTokenIs token.RPAREN then ([], p.nextToken)
      else
        let p := p.nextToken
        let first : Identifier := ⟨p.curToken, p.curToken.literal⟩
        let (more, p) := parseIdentSeqF fuel p
        let (ok, p) := p.expectPeek token.RPAREN
        if !ok then ([], p) else (first :: more, p)

def parseIdentSeqF : Nat → ParserState → List Identifier × ParserState
  | 0, p => ([], p.addError fuelMarker)
  | fuel + 1, p =>
      if p.peekTokenIs token.COMMA then
        let p := p.nextToken
        let p := p.nextToken
        let ident : Identifier := ⟨p.curToken, p.curToken.literal⟩
        let (more, p) := parseIdentSeqF fuel p
        (ident :: more, p)
      else ([], p)

/-- ParseCallExpression, registered as the infix parser of the left
parenthesis. -/
def parseCallExpressionF : Nat → Expression → ParserState → Expression × ParserState
  | 0, left, p => (left, p.addError fuelMarker)
  | fuel + 1, function, p =>
      let tok := p.curToken
      let (args, p) := parseExpressionListF fuel token.RPAREN p
      (.callE tok function args, p)

/-- ParseExpressionList: the generalized comma-separated expression list
used by calls and array literals; failure yields the nil (empty) slice. -/
def parseExpressionListF : Nat → TokenType → ParserState → List Expression × ParserState
  | 0, _, p => ([], p.addError fuelMarker)
  | fuel + 1, endTok, p =>
      if p.peekTokenIs endTok then ([], p.nextToken)
      else
        let p := p.nextToken
        let (first, p) := parseExpressionF fuel LOWEST p
        let (more, p) := parseExprSeqF fuel p
        let (ok, p) := p.expectPeek endTok
        if !ok then ([], p) else (first :: more, p)

def parseExprSeqF : Nat → ParserState → List Expression × ParserState
  | 0, p => ([], p.addError fuelMarker)
  | fuel + 1, p =>
      if p.peekTokenIs token.COMMA then
        let p := p.nextToken
        let p := p.nextToken
        let (e, p) := parseExpressionF fuel LOWEST p
        let (more, p) := parseExprSeqF fuel p
        (e :: more, p)
      else ([], p)

/-- ParseArrayLiteral. -/
def parseArrayLiteralF : Nat → ParserState → Expression × ParserState
  | 0, p => (.nilE, p.addError fuelMarker)
  | fuel + 1, p =>
      let tok := p.curToken
      let (elems, p) := parseExpressionListF fuel token.RBRACKET p
      (.arrayLit tok elems, p)

/-- ParseIndexExpression, registered as the infix parser of the left
bracket. -/
def parseIndexExpressionF : Nat → Expression → ParserState → Expression × ParserState
  | 0, left, p => (left, p.addError fuelMarker)
  | fuel + 1, leftExp, p =>
      let tok := p.curToken
      let p := p.nextToken
      let (index, p) := parseExpressionF fuel LOWEST p
      let (ok, p) := p.expectPeek token.RBRACKET
      if ok then (.indexE tok leftExp index, p) else (.nilE, p)

/-- ParseMacroLiteral: the same shape as a function literal, introduced
by the macro keyword. -/
def parseMacroLiteralF : Nat → ParserState → Expression × ParserState
  | 0, p => (.nilE, p.addError fuelMarker)
  | fuel + 1, p =>
      let tok := p.curToken
      let (ok, p) := p.expectPeek token.LPAREN
      if !ok then (.nilE, p)
      else
        let (params, p) := parseFunctionParametersF fuel p
        let (ok, p) := p.expectPeek token.LBRACE
        if !ok then (.nilE, p)
        else
          let (body, p) := parseBlockStatementF fuel p
          (.macroLit tok params body, p)

/-- ParseHashLiteral: expr colon expr pairs until the closing brace.
The Go code inserts into a map keyed by freshly parsed expression
pointers, so the map contents grow by one pair per iteration; the model
records the contents in insertion order. -/
def parseHashLiteralF : Nat → ParserState → Expression × ParserState
  | 0, p => (.nilE, p.addError fuelMarker)
  | fuel + 1, p =>
      let tok := p.curToken
      match parseHashPairsLoopF fuel p with
      | (none, p) => (.nilE, p)
      | (some pairs, p) =>
          let (ok, p) := p.expectPeek token.RBRACE
          if !ok then (.nilE, p) else (.hashLit tok pairs, p)

def parseHashPairsLoopF :
    Nat → ParserState → Option (List (Expression × Expression)) × ParserState
  | 0, p => (none, p.addError fuelMarker)
  | fuel + 1, p =>
      if !p.peekTokenIs token.RBRACE then
        let p := p.nextToken
        let (key, p) := parseExpressionF fuel LOWEST p
        let (ok, p) := p.expectPeek token.COLON
        if !ok then (none, p)
        else
          let p := p.nextToken
          let (value, p) := parseExpressionF fuel LOWEST p
          if !p.peekTokenIs token.RBRACE then
            let (ok, p) := p.expectPeek token.COMMA
            if !ok then (none, p)
            else
              match parseHashPairsLoopF fuel p with
              | (none, p) => (none, p)
              | (some rest, p) => (some ((key, value) :: rest), p)
          else
            match parseHashPairsLoopF fuel p with
            | (none, p) => (none, p)
            | (some rest, p) => (some ((key, value) :: rest), p)
      else (some [], p)

/-- ParseForExpression (the experimental for form registered in the
prefix table; no evaluator path consumes it). -/
def parseForExpressionF : Nat → ParserState → Expression × ParserState
  | 0, p => (.nilE, p.addError fuelMarker)
  | fuel + 1, p =>
      let tok := p.curToken
      let (ok, p) := p.expectPeek token.LPAREN
      if !ok then (.nilE, p)
      else
        let p := p.nextToken
        let (ini, p) :=
          if p.curTokenIs token.LET then
            let (s, p) := parseLetStatementF fuel p
            (some s, p)
          else if !p.curTokenIs token.SEMICOLON then
            let (s, p) := parseExpressionStatementF fuel p
            (some s, p)
          else (none, p)
        let p := p.nextToken
        match
          (if !p.curTokenIs token.SEMICOLON then
            let (c, p) := parseExpressionF fuel LOWEST p
            let (ok, p) := p.expectPeek token.SEMICOLON
            if !ok then (none, p) else (some (some c), p)
          else (some none, p) : Option (Option Expression) × ParserState)
        with
        | (none, p) => (.nilE, p)
        | (some cond, p) =>
          let p := p.nextToken
          let (update, p) :=
            if p.curTokenIs token.LET then
              let (s, p) := parseLetStatementF fuel p
              (some s, p)
            else if !p.curTokenIs token.RPAREN then
              let (s, p) := parseExpressionStatementF fuel p
              (some s, p)
            else (none, p)
          let (ok, p) :=
            if !p.curTokenIs token.RPAREN then p.expectPeek token.RPAREN
            else (true, p)
          if !ok then (.nilE, p)
          else
            let (ok, p) := p.expectPeek token.LBRACE
            if !ok then (.nilE, p)
            else
              let (body, p) := parseBlockStatementF fuel p
              (.forE tok ini cond update body, p)

/-- ParseStatement dispatch. -/
def parseStatementF : Nat → ParserState → Statement × ParserState
  | 0, p => (.nilS, p.addError fuelMarker)
  | fuel + 1, p =>
      if p.curTokenIs token.LET then parseLetStatementF fuel p
      else if p.curTokenIs token.RETURN then parseReturnStatementF fuel p
      else parseExpressionStatementF fuel p

/-- ParseLetStatement; the semicolon is optional. -/
def parseLetStatementF : Nat → ParserState → Statement × ParserState
  | 0, p => (.nilS, p.addError fuelMarker)
  | fuel + 1, p =>
      let tok := p.curToken
      let (ok, p) := p.expectPeek token.IDENT
      if !ok then (.nilS, p)
      else
        let name : Identifier := ⟨p.curToken, p.curToken.literal⟩
        let (ok, p) := p.expectPeek token.ASSIGN
        if !ok then (.nilS, p)
        else
          let p := p.nextToken
          let (value, p) := parseExpressionF fuel LOWEST p
          let p := if p.peekTokenIs token.SEMICOLON then p.nextToken else p
          (.letS tok name value, p)

/-- ParseReturnStatement; the semicolon is optional. -/
def parseReturnStatementF : Nat → ParserState → Statement × ParserState
  | 0, p => (.nilS, p.addError fuelMarker)
  | fuel + 1, p =>
      let tok := p.curToken
      let p := p.nextToken
      let (value, p) := parseExpressionF fuel LOWEST p
      let p := if p.peekTokenIs token.SEMICOLON then p.nextToken else p
      (.returnS tok value, p)

/-- ParseExpressionStatement; the semicolon is optional. -/
def parseExpressionStatementF : Nat → ParserState → Statement × ParserState
  | 0, p => (.nilS, p.addError fuelMarker)
  | fuel + 1, p =>
      let tok := p.curToken
      let (e, p) := parseExpressionF fuel LOWEST p
      let p := if p.peekTokenIs token.SEMICOLON then p.nextToken else p
      (.exprS tok e, p)

end

/-- ParseProgram loop: statements until EOF, discarding nil results. -/
def parseProgramLoopF : Nat → ParserState → List Statement × ParserState
  | 0, p => ([], p.addError fuelMarker)
  | fuel + 1, p =>
      if !p.curTokenIs token.EOF then
        let (stmt, p) := parseStatementF fuel p
        let p := p.nextToken
        let (rest, p) := parseProgramLoopF fuel p
        match stmt with
        | .nilS => (rest, p)
        | s => (s :: rest, p)
      else ([], p)

/-- ParseProgram over a token stream. -/
def ParseProgramF (fuel : Nat) (tokens : List Token) : Program × ParserState :=
  let p := newParserFromTokens tokens
  let (stmts, p) := parseProgramLoopF fuel p
  (⟨stmts⟩, p)

/-! ## Chooser instances and concrete fixtures used by the theorems -/

/-- Chooser that iterates a map in insertion order (one legal order). -/
def epId : PairChooser := fun l => l

/-- Chooser that iterates a map in reversed insertion order (another
legal order: the reverse of a list is a permutation of it). -/
def epRev : PairChooser := fun l => l.reverse

/-- Inspection chooser for insertion order. -/
def dpId : List String → List String := fun l => l

/-- Inspection chooser for reversed order. -/
def dpRev : List String → List String := fun l => l.reverse

/-- Shorthand for an identifier expression with its IDENT token. -/
def identE (name : String) : Expression := .ident ⟨⟨token.IDENT, name⟩, name⟩

/-- Shorthand for an integer literal expression with its INT token. -/
def intE (n : Int) : Expression := .intLit ⟨token.INT, toString n⟩ n

/-- The expression 10 > 1. -/
def tenGtOne : Expression := .infixE ⟨token.GT, ">"⟩ (intE 10) ">" (intE 1)

/-- The block of the inner if: a single return 10 statement. -/
def innerBlock : Block := .mk ⟨token.LBRACE, "\x7b"⟩
  [.returnS ⟨token.RETURN, "return"⟩ (intE 10)]

/-- The inner conditional if (10 > 1), braces return 10. -/
def innerIf : Expression := .ifE ⟨token.IF, "if"⟩ tenGtOne innerBlock none

/-- The outer block: the inner if, then return 1. -/
def outerBlock : Block := .mk ⟨token.LBRACE, "\x7b"⟩
  [.exprS ⟨token.IF, "if"⟩ innerIf, .returnS ⟨token.RETURN, "return"⟩ (intE 1)]

/-- The outer conditional. -/
def outerIf : Expression := .ifE ⟨token.IF, "if"⟩ tenGtOne outerBlock none

/-- AST of the program if (10 > 1) then if (10 > 1) then return 10 end;
return 1 end. -/
def nestedReturnProgram : Program := ⟨[.exprS ⟨token.IF, "if"⟩ outerIf]⟩

/-- Hash literal whose two keys are the unbound identifiers a and b, so
both pairs would produce errors. -/
def hashTwoErr : Expression := .hashLit ⟨token.LBRACE, "\x7b"⟩
  [(identE "a", intE 1), (identE "b", intE 2)]

/-- The stored pair list of hashTwoErr. -/
def hashTwoErrPairs : List (Expression × Expression) :=
  [(identE "a", intE 1), (identE "b", intE 2)]

/-- Hash literal with two integer pairs, 1 : 2 and 3 : 4. -/
def hashIntLit : Expression := .hashLit ⟨token.LBRACE, "\x7b"⟩
  [(intE 1, intE 2), (intE 3, intE 4)]

/-- The hash object that evaluating hashIntLit produces. -/
def hashIntObj : Object := .hashObj
  [(integerHashKey 1, .integer 1, .integer 2), (integerHashKey 3, .integer 3, .integer 4)]

/-- The macro parameter x. -/
def xParam : Identifier := ⟨⟨token.IDENT, "x"⟩, "x"⟩

/-- Body of the identity macro: it returns quote(unquote(x)), so the
call site is replaced by the argument AST itself. -/
def identityMacroBody : Block := .mk ⟨token.LBRACE, "\x7b"⟩
  [.exprS ⟨token.IDENT, "quote"⟩
    (.callE ⟨token.LPAREN, "("⟩ (identE "quote")
      [.callE ⟨token.LPAREN, "("⟩ (identE "unquote") [identE "x"]])]

/-- Macro environment binding m to the identity macro, as DefineMacros
would build it from let m = macro(x) braces quote(unquote(x)); end. -/
def identityMacroEnv : Env :=
  NewEnvironment.set "m" (.macroObj [xParam] identityMacroBody NewEnvironment)

/-- Program holding the single macro call m(a) for a given argument. -/
def macroCallProgram (a : Expression) : Program :=
  ⟨[.exprS ⟨token.IDENT, "m"⟩ (.callE ⟨token.LPAREN, "("⟩ (identE "m") [a])]⟩

/-- The token of an identifier used as a parser input. -/
def identToken (name : String) : Token := ⟨token.IDENT, name⟩

/-- The eight binary operator tokens registered with
parseInfixExpression. -/
def binaryOpTokens : List Token :=
  [⟨token.PLUS, "+"⟩, ⟨token.MINUS, "-"⟩, ⟨token.ASTERISK, "*"⟩, ⟨token.SLASH, "/"⟩,
   ⟨token.EQ, "=="⟩, ⟨token.NOT_EQ, "!="⟩, ⟨token.LT, "<"⟩, ⟨token.GT, ">"⟩]

/-- The macro parameter y, used with xParam for two-parameter bindings. -/
def yParam : Identifier := ⟨⟨token.IDENT, "y"⟩, "y"⟩

/-! ### Hash-freedom predicates

An AST node or object is hash-free when no hash literal or hash value
occurs anywhere its printed form reaches: those are exactly the positions
where printing ranges over a Go map, so printing a hash-free value cannot
depend on the iteration order. -/

mutual

def astHashFreeE : Expression → Bool
  | .ident _ => true
  | .intLit _ _ => true
  | .strLit _ _ => true
  | .boolLit _ _ => true
  | .prefixE _ _ r => astHashFreeE r
  | .infixE _ l _ r => astHashFreeE l && astHashFreeE r
  | .ifE _ c cons alt =>
      astHashFreeE c && astHashFreeB cons &&
        (match alt with
         | some a => astHashFreeB a
         | none => true)
  | .funcLit _ _ body => astHashFreeB body
  | .callE _ fn args => astHashFreeE fn && astHashFreeEL args
  | .arrayLit _ elems => astHashFreeEL elems
  | .indexE _ l ix => astHashFreeE l && astHashFreeE ix
  | .hashLit _ _ => false
  | .macroLit _ _ body => astHashFreeB body
  | .forE _ _ _ _ _ => true
  | .nilE => true

def astHashFreeS : Statement → Bool
  | .letS _ _ v => astHashFreeE v
  | .returnS _ v => astHashFreeE v
  | .exprS _ e => astHashFreeE e
  | .blockS b => astHashFreeB b
  | .nilS => true

def astHashFreeB : Block → Bool
  | .mk _ stmts => astHashFreeSL stmts
  | .nilB => true

def astHashFreeEL : List Expression → Bool
  | [] => true
  | e :: rest => astHashFreeE e && astHashFreeEL rest

def astHashFreeSL : List Statement → Bool
  | [] => true
  | s :: rest => astHashFreeS s && astHashFreeSL rest

end

def astHashFreeN : Node → Bool
  | .prog p => astHashFreeSL p.statements
  | .stmt s => astHashFreeS s
  | .expr e => astHashFreeE e
  | .nilNode => true

mutual

def objHashFreeO : Object → Bool
  | .integer _ => true
  | .boolean _ => true
  | .strObj _ => true
  | .nullObj => true
  | .returnValue v => objHashFreeO v
  | .errorObj _ => true
  | .function _ body _ => astHashFreeB body
  | .builtin _ => true
  | .arrayObj elems => objHashFreeL elems
  | .hashObj _ => false
  | .quoteObj n => astHashFreeN n
  | .macroObj _ body _ => astHashFreeB body
  | .goNilObj => true

def objHashFreeL : List Object → Bool
  | [] => true
  | o :: rest => objHashFreeO o && objHashFreeL rest

end

/-! ## Helper lemmas

The DI family proves that printing a hash-free node or object does not
depend on the map-iteration chooser; the bindParams lemmas characterise
the positional binding loop. -/

set_option maxHeartbeats 1000000 in
mutual

theorem displayExprDI (dp1 dp2 : List String → List String) :
    (e : Expression) → astHashFreeE e = true → displayExpr dp1 e = displayExpr dp2 e
  | .ident _, _ => rfl
  | .intLit _ _, _ => rfl
  | .strLit _ _, _ => rfl
  | .boolLit _ _, _ => rfl
  | .prefixE _ _ r, h => by
      simp only [astHashFreeE] at h
      simp only [displayExpr, displayExprDI dp1 dp2 r h]
  | .infixE _ l _ r, h => by
      simp only [astHashFreeE, Bool.and_eq_true] at h
      simp only [displayExpr, displayExprDI dp1 dp2 l h.1, displayExprDI dp1 dp2 r h.2]
  | .ifE _ c cons alt, h => by
      cases alt with
      | none =>
          simp only [astHashFreeE, Bool.and_eq_true] at h
          simp only [displayExpr, displayExprDI dp1 dp2 c h.1.1,
            displayBlockDI dp1 dp2 cons h.1.2]
      | some a =>
          simp only [astHashFreeE, Bool.and_eq_true] at h
          simp only [displayExpr, displayExprDI dp1 dp2 c h.1.1,
            displayBlockDI dp1 dp2 cons h.1.2, displayBlockDI dp1 dp2 a h.2]
  | .funcLit _ _ body, h => by
      simp only [astHashFreeE] at h
      simp only [displayExpr, displayBlockDI dp1 dp2 body h]
  | .callE _ fn args, h => by
      simp only [astHashFreeE, Bool.and_eq_true] at h
      simp only [displayExpr, displayExprDI dp1 dp2 fn h.1,
        displayExprListDI dp1 dp2 args h.2]
  | .arrayLit _ elems, h => by
      simp only [astHashFreeE] at h
      simp only [displayExpr, displayExprListDI dp1 dp2 elems h]
  | .indexE _ l ix, h => by
      simp only [astHashFreeE, Bool.and_eq_true] at h
      simp only [displayExpr, displayExprDI dp1 dp2 l h.1, displayExprDI dp1 dp2 ix h.2]
  | .macroLit _ _ body, h => by
      simp only [astHashFreeE] at h
      simp only [displayExpr, displayBlockDI dp1 dp2 body h]
  | .forE _ _ _ _ _, _ => rfl
  | .nilE, _ => rfl

theorem displayStmtDI (dp1 dp2 : List String → List String) :
    (s : Statement) → astHashFreeS s = true → displayStmt dp1 s = displayStmt dp2 s
  | .letS _ _ v, h => by
      simp only [astHashFreeS] at h
      cases v <;> simp only [displayStmt] <;> rw [displayExprDI dp1 dp2 _ h]
  | .returnS _ v, h => by
      simp only [astHashFreeS] at h
      cases v <;> simp only [displayStmt] <;> rw [displayExprDI dp1 dp2 _ h]
  | .exprS _ e, h => by
      simp only [astHashFreeS] at h
      cases e <;> simp only [displayStmt] <;> rw [displayExprDI dp1 dp2 _ h]
  | .blockS b, h => by
      simp only [astHashFreeS] at h
      exact displayBlockDI dp1 dp2 b h
  | .nilS, _ => rfl

theorem displayBlockDI (dp1 dp2 : List String → List String) :
    (b : Block) → astHashFreeB b = true → displayBlock dp1 b = displayBlock dp2 b
  | .mk _ stmts, h => by
      simp only [astHashFreeB] at h
      simp only [displayBlock, displayStmtListDI dp1 dp2 stmts h]
  | .nilB, _ => rfl

theorem displayExprListDI (dp1 dp2 : List String → List String) :
    (l : List Expression) → astHashFreeEL l = true →
      displayExprList dp1 l = displayExprList dp2 l
  | [], _ => rfl
  | e :: rest, h => by
      simp only [astHashFreeEL, Bool.and_eq_true] at h
      simp only [displayExprList, displayExprDI dp1 dp2 e h.1,
        displayExprListDI dp1 dp2 rest h.2]

theorem displayStmtListDI (dp1 dp2 : List String → List String) :
    (l : List Statement) → astHashFreeSL l = true →
      displayStmtList dp1 l = displayStmtList dp2 l
  | [], _ => rfl
  | s :: rest, h => by
      simp only [astHashFreeSL, Bool.and_eq_true] at h
      simp only [displayStmtList, displayStmtDI dp1 dp2 s h.1,
        displayStmtListDI dp1 dp2 rest h.2]

end

theorem displayNodeDI (dp1 dp2 : List String → List String) :
    (n : Node) → astHashFreeN n = true → displayNode dp1 n = displayNode dp2 n
  | .prog p, h => by
      simp only [astHashFreeN] at h
      simp only [displayNode, displayStmtListDI dp1 dp2 p.statements h]
  | .stmt s, h => displayStmtDI dp1 dp2 s (by simpa [astHashFreeN] using h)
  | .expr e, h => displayExprDI dp1 dp2 e (by simpa [astHashFreeN] using h)
  | .nilNode, _ => rfl

mutual

theorem inspectObjDI (dp1 dp2 : List String → List String) :
    (o : Object) → objHashFreeO o = true → inspectObj dp1 o = inspectObj dp2 o
  | .integer _, _ => rfl
  | .boolean _, _ => rfl
  | .strObj _, _ => rfl
  | .nullObj, _ => rfl
  | .returnValue v, h => by
      simp only [objHashFreeO] at h
      simp only [inspectObj, inspectObjDI dp1 dp2 v h]
  | .errorObj _, _ => rfl
  | .function _ body _, h => by
      simp only [objHashFreeO] at h
      simp only [inspectObj, displayBlockDI dp1 dp2 body h]
  | .builtin _, _ => rfl
  | .arrayObj elems, h => by
      simp only [objHashFreeO] at h
      simp only [inspectObj, inspectListDI dp1 dp2 elems h]
  | .quoteObj n, h => by
      simp only [objHashFreeO] at h
      simp only [inspectObj, displayNodeDI dp1 dp2 n h]
  | .macroObj _ body _, h => by
      simp only [objHashFreeO] at h
      simp only [inspectObj, displayBlockDI dp1 dp2 body h]
  | .goNilObj, _ => rfl

theorem inspectListDI (dp1 dp2 : List String → List String) :
    (l : List Object) → objHashFreeL l = true → inspectList dp1 l = inspectList dp2 l
  | [], _ => rfl
  | o :: rest, h => by
      simp only [objHashFreeL, Bool.and_eq_true] at h
      simp only [inspectList, inspectObjDI dp1 dp2 o h.1, inspectListDI dp1 dp2 rest h.2]

end

/-- Binding with fewer arguments than parameters reaches the
out-of-range access. -/
theorem bindParams_short (params : List Identifier) (args : List Object) :
    ∀ env, args.length < params.length →
      bindParamsByPosition env params args =
        Except.error (.goPanic "runtime error: index out of range") := by
  induction params generalizing args with
  | nil => intro env h; simp at h
  | cons p ps ih =>
      intro env h
      match args with
      | [] => rfl
      | a :: as =>
          simp only [bindParamsByPosition]
          exact ih as _ (by simpa using h)

/-- Binding with at least as many arguments as parameters stays in range
and succeeds. -/
theorem bindParams_ok (params : List Identifier) (args : List Object) :
    ∀ env, params.length ≤ args.length →
      ∃ env2, bindParamsByPosition env params args = Except.ok env2 := by
  induction params generalizing args with
  | nil => intro env _; exact ⟨env, by cases args <;> rfl⟩
  | cons p ps ih =>
      intro env h
      match args with
      | [] => simp at h
      | a :: as => exact ih as _ (by simpa using h)

/-! ## Claim theorems -/

/-- C1: a block statement whose statement evaluates to a ReturnWrapper or
an Error returns that object WITHOUT unwrapping it, while program
evaluation unwraps the ReturnWrapper (and returns the Error as-is);
consequently the program if (10 > 1) then if (10 > 1) then return 10
end; return 1 end evaluates to Integer 10, with the outer block itself
producing the still-wrapped ReturnWrapper(10). -/
theorem C1_block_keeps_wrapper_program_unwraps
    (ep : PairChooser) (fuel fuel2 : Nat) (s s2 : Statement)
    (rest rest2 : List Statement) (env env2 env3 env4 : Env) (v : Object) (msg : String)
    (hret : evalN ep fuel (.stmt s) env = Except.ok (Object.returnValue v, env2))
    (herr : evalN ep fuel2 (.stmt s2) env3 = Except.ok (Object.errorObj msg, env4)) :
    evalBlockStmtsF ep (fuel + 1) (s :: rest) env =
      Except.ok (Object.returnValue v, env2) ∧
    evalProgramF ep (fuel + 1) (s :: rest) env = Except.ok (v, env2) ∧
    evalBlockStmtsF ep (fuel2 + 1) (s2 :: rest2) env3 =
      Except.ok (Object.errorObj msg, env4) ∧
    evalProgramF ep (fuel2 + 1) (s2 :: rest2) env3 =
      Except.ok (Object.errorObj msg, env4) ∧
    evalN ep 20 (.prog nestedReturnProgram) NewEnvironment =
      Except.ok (Object.integer 10, NewEnvironment) ∧
    evalN ep 20 (.stmt (.blockS outerBlock)) NewEnvironment =
      Except.ok (Object.returnValue (Object.integer 10), NewEnvironment) := by
  refine ⟨?_, ?_, ?_, ?_, rfl, rfl⟩
  · unfold evalBlockStmtsF
    rw [hret]
    rfl
  · unfold evalProgramF
    rw [hret]
    rfl
  · unfold evalBlockStmtsF
    rw [herr]
    rfl
  · unfold evalProgramF
    rw [herr]
    rfl

/-- Witness for C1 at a concrete input: a block starting with return 10
evaluates to the wrapped value, discharging the hypotheses at return 10
and at the unbound identifier nope. -/
theorem C1_block_keeps_wrapper_program_unwraps_witness :
    evalBlockStmtsF epId 6 [.returnS ⟨token.RETURN, "return"⟩ (intE 10)] NewEnvironment =
      Except.ok (Object.returnValue (Object.integer 10), NewEnvironment) ∧
    evalProgramF epId 6 [.exprS ⟨token.IDENT, "nope"⟩ (identE "nope")] NewEnvironment =
      Except.ok (Object.errorObj "identifier not found: nope", NewEnvironment) :=
  ⟨(C1_block_keeps_wrapper_program_unwraps epId 5 5
      (.returnS ⟨token.RETURN, "return"⟩ (intE 10))
      (.exprS ⟨token.IDENT, "nope"⟩ (identE "nope")) [] [] NewEnvironment NewEnvironment
      NewEnvironment NewEnvironment (Object.integer 10) "identifier not found: nope"
      rfl rfl).1,
   (C1_block_keeps_wrapper_program_unwraps epId 5 5
      (.returnS ⟨token.RETURN, "return"⟩ (intE 10))
      (.exprS ⟨token.IDENT, "nope"⟩ (identE "nope")) [] [] NewEnvironment NewEnvironment
      NewEnvironment NewEnvironment (Object.integer 10) "identifier not found: nope"
      rfl rfl).2.2.2.1⟩

/-- C2 counterexample: the hash literal with pairs a : 1, b : 2 (both
keys unbound identifiers) evaluates under the insertion-order iteration
to the error for a, but under the reversed iteration order, which is an
equally legal Go map order (a permutation of the pairs), to the error
for b, so the error of the textually first offending pair is not always
the one returned. -/
theorem C2_counterexample :
    evalN epId 20 (.expr hashTwoErr) NewEnvironment =
      Except.ok (newError "identifier not found: a", NewEnvironment) ∧
    evalN epRev 20 (.expr hashTwoErr) NewEnvironment =
      Except.ok (newError "identifier not found: b", NewEnvironment) ∧
    List.Perm (epRev hashTwoErrPairs) hashTwoErrPairs ∧
    newError "identifier not found: b" ≠ newError "identifier not found: a" := by
  refine ⟨rfl, rfl, List.reverse_perm _, ?_⟩
  intro h
  simp only [newError, Object.errorObj.injEq] at h
  exact absurd h (by decide)

/-- C2 amended: the pairs of a hash literal are stored in a map with no
insertion order; evaluation visits them in an implementation-defined
iteration order and returns the error of the first offending pair IN
THAT ORDER: when the key of the first visited pair evaluates to an
error, that error is the result of the whole hash literal. -/
theorem C2_first_error_in_iteration_order (ep : PairChooser) (fuel : Nat)
    (k v : Expression) (rest : List (Expression × Expression))
    (acc : List (HashKey × Object × Object)) (env env2 : Env) (msg : String)
    (hkey : evalN ep fuel (.expr k) env = Except.ok (newError msg, env2)) :
    evalHashLiteralF ep (fuel + 1) ((k, v) :: rest) acc env =
      Except.ok (newError msg, env2) := by
  unfold evalHashLiteralF
  rw [hkey]
  rfl

/-- Witness for C2 amended at the concrete pairs of hashTwoErr. -/
theorem C2_first_error_in_iteration_order_witness :
    evalHashLiteralF epId 6 hashTwoErrPairs [] NewEnvironment =
      Except.ok (newError "identifier not found: a", NewEnvironment) :=
  C2_first_error_in_iteration_order epId 5 (identE "a") (intE 1)
    [(identE "b", intE 2)] [] NewEnvironment NewEnvironment "identifier not found: a" rfl

/-- C3 counterexample: the infix expression 1 == true evaluates to the
Boolean false singleton, not to Error(type mismatch: INTEGER ==
BOOLEAN), because the == case of evalInfixExpression is checked before
the differing-kinds case. -/
theorem C3_counterexample :
    evalInfixExpressionF "==" (Object.integer 1) TRUE = Except.ok FALSE ∧
    evalN epId 20 (.expr (.infixE ⟨token.EQ, "=="⟩ (intE 1) "=="
        (.boolLit ⟨token.TRUE, "true"⟩ true))) NewEnvironment =
      Except.ok (FALSE, NewEnvironment) ∧
    FALSE ≠ newError "type mismatch: INTEGER == BOOLEAN" :=
  ⟨rfl, rfl, by simp [FALSE, newError]⟩

/-- C3 amended: for non-error operands of different kinds, every
operator other than == and != returns Error(type mismatch: LKIND OP
RKIND); the operators == and != are dispatched before the mismatch case
and compare by identity instead, which for different kinds yields FALSE
and TRUE respectively. -/
theorem C3_mismatch_except_equality_ops (op : String) (l r : Object)
    (hty : l.type ≠ r.type) :
    (op ≠ "==" → op ≠ "!=" →
      evalInfixExpressionF op l r =
        Except.ok (newError ("type mismatch: " ++ l.type ++ " " ++ op ++ " " ++ r.type))) ∧
    (op = "==" → evalInfixExpressionF op l r = Except.ok FALSE) ∧
    (op = "!=" → evalInfixExpressionF op l r = Except.ok TRUE) := by
  have hint : ¬(l.type = object.INTEGER_OBJ ∧ r.type = object.INTEGER_OBJ) := by
    rintro ⟨ha, hb⟩; exact hty (ha.trans hb.symm)
  have hstr : ¬(l.type = object.STRING_OBJ ∧ r.type = object.STRING_OBJ) := by
    rintro ⟨ha, hb⟩; exact hty (ha.trans hb.symm)
  have hptr : ptrEq l r = Except.ok false := by
    unfold ptrEq
    rw [if_pos hty]
    rfl
  refine ⟨?_, ?_, ?_⟩
  · intro hne hnq
    unfold evalInfixExpressionF
    rw [if_neg hint, if_neg hstr, if_neg hne, if_neg hnq, if_pos hty]
    rfl
  · rintro rfl
    unfold evalInfixExpressionF
    rw [if_neg hint, if_neg hstr, if_pos rfl, hptr]
    rfl
  · rintro rfl
    unfold evalInfixExpressionF
    rw [if_neg hint, if_neg hstr, if_neg (by decide : ¬("!=" : String) = "=="),
      if_pos rfl, hptr]
    rfl

/-- Witness for C3 amended: INTEGER + BOOLEAN is a type mismatch while
INTEGER != BOOLEAN is TRUE. -/
theorem C3_mismatch_except_equality_ops_witness :
    evalInfixExpressionF "+" (Object.integer 1) TRUE =
      Except.ok (newError "type mismatch: INTEGER + BOOLEAN") ∧
    evalInfixExpressionF "!=" (Object.integer 1) TRUE = Except.ok TRUE :=
  ⟨(C3_mismatch_except_equality_ops "+" (Object.integer 1) TRUE (by decide)).1
      (by decide) (by decide),
   (C3_mismatch_except_equality_ops "!=" (Object.integer 1) TRUE (by decide)).2.2 rfl⟩

/-- C4 counterexample: evaluating the hash literal with pairs 1 : 2 and
3 : 4 yields a Hash whose Inspect differs between two legal map
iteration orders (insertion order and its reverse, a permutation), so
two runs of the same program need not produce identical Inspect
strings when the result is a Hash. -/
theorem C4_counterexample :
    evalN epId 20 (.expr hashIntLit) NewEnvironment =
      Except.ok (hashIntObj, NewEnvironment) ∧
    inspectObj dpId hashIntObj = "\x7b1: 2, 3: 4\x7d" ∧
    inspectObj dpRev hashIntObj = "\x7b3: 4, 1: 2\x7d" ∧
    List.Perm (dpRev ["1: 2", "3: 4"]) ["1: 2", "3: 4"] ∧
    ("\x7b1: 2, 3: 4\x7d" : String) ≠ "\x7b3: 4, 1: 2\x7d" :=
  ⟨rfl, rfl, rfl, List.reverse_perm _, by decide⟩

/-- C4 amended: evaluation in the model is a function of the AST, the
environment and the map iteration orders, so repeated evaluation with
the same orders is deterministic; the Inspect string is moreover
independent of the iteration orders whenever the result value is
hash-free (no Hash value and no hash literal inside a printed function
body or quoted node), the only positions where printing ranges over a
Go map. -/
theorem C4_inspect_order_independent_when_hash_free
    (dp1 dp2 : List String → List String) (o : Object)
    (h : objHashFreeO o = true) : inspectObj dp1 o = inspectObj dp2 o :=
  inspectObjDI dp1 dp2 o h

/-- Witness for C4 amended at the concrete array [1, x]. -/
theorem C4_inspect_order_independent_when_hash_free_witness :
    objHashFreeO (.arrayObj [.integer 1, .strObj "x"]) = true ∧
    inspectObj dpId (.arrayObj [.integer 1, .strObj "x"]) =
      inspectObj dpRev (.arrayObj [.integer 1, .strObj "x"]) :=
  ⟨rfl, C4_inspect_order_independent_when_hash_free dpId dpRev _ rfl⟩

/-- C5: during macro expansion the argument expressions of a macro call
are never evaluated: quoteArgs wraps each argument AST unevaluated in a
Quote object, extendMacroEnv binds them by position in a fresh frame
whose outer is the captured macro environment, and expanding a call of
the identity macro transplants ANY argument expression a syntactically
into the output program, including (witnessed by the last conjunct) an
argument whose evaluation would produce an Error. -/
theorem C5_macro_args_quoted_unevaluated (a b : Expression) (mEnv : Env) :
    quoteArgsF [a, b] = [Object.quoteObj (Node.expr a), Object.quoteObj (Node.expr b)] ∧
    extendMacroEnvF [xParam, yParam] mEnv (quoteArgsF [a, b]) =
      Except.ok (.mk [("x", Object.quoteObj (Node.expr a)),
        ("y", Object.quoteObj (Node.expr b))] (some mEnv)) ∧
    ExpandMacrosF epId 20 (.prog (macroCallProgram a)) identityMacroEnv =
      Except.ok (.prog ⟨[.exprS ⟨token.IDENT, "m"⟩ a]⟩) ∧
    evalN epId 20 (.expr (identE "boom")) NewEnvironment =
      Except.ok (newError "identifier not found: boom", NewEnvironment) :=
  ⟨rfl, rfl, rfl, rfl⟩

/-- C6: indexing an Array with an Integer returns the element at the
index when it lies in 0 .. length-1 and the NULL singleton otherwise;
NULL is not an Error. -/
theorem C6_array_index_bounds (elems : List Object) (i : Int) :
    (0 ≤ i → ∀ h : i.toNat < elems.length,
      evalIndexExpressionF (.arrayObj elems) (.integer i) =
        Except.ok (elems.get ⟨i.toNat, h⟩)) ∧
    (i < 0 ∨ (elems.length : Int) ≤ i →
      evalIndexExpressionF (.arrayObj elems) (.integer i) = Except.ok NULL) ∧
    NULL.type ≠ object.ERROR_OBJ := by
  refine ⟨?_, ?_, by decide⟩
  · intro hnn h
    have hcond : ¬(i < 0 ∨ i > (elems.length : Int) - 1) := by omega
    simp only [evalIndexExpressionF, evalArrayIndexExpressionF]
    rw [if_pos ⟨rfl, rfl⟩, if_neg hcond]
    rw [List.getD_eq_getElem _ _ h]
    rfl
  · intro hout
    have hcond : i < 0 ∨ i > (elems.length : Int) - 1 := by omega
    simp only [evalIndexExpressionF, evalArrayIndexExpressionF]
    rw [if_pos ⟨rfl, rfl⟩, if_pos hcond]
    rfl

/-- Witness for C6 at the concrete array [7, 8]: index 1 yields 8,
index 5 and index -1 yield NULL. -/
theorem C6_array_index_bounds_witness :
    evalIndexExpressionF (.arrayObj [Object.integer 7, Object.integer 8])
      (.integer 1) = Except.ok (Object.integer 8) ∧
    evalIndexExpressionF (.arrayObj [Object.integer 7, Object.integer 8])
      (.integer 5) = Except.ok NULL ∧
    evalIndexExpressionF (.arrayObj [Object.integer 7, Object.integer 8])
      (.integer (-1)) = Except.ok NULL :=
  ⟨(C6_array_index_bounds [Object.integer 7, Object.integer 8] 1).1
      (by decide) (by decide),
   (C6_array_index_bounds [Object.integer 7, Object.integer 8] 5).2.1
      (by decide),
   (C6_array_index_bounds [Object.integer 7, Object.integer 8] (-1)).2.1
      (by decide)⟩

/-- C7: binary operators of equal precedence parse left-associatively:
for identifier operands n1, n2, n3 and any two of the eight registered
binary operator tokens with equal table precedence, the parsed tree of
n1 OP1 n2 OP2 n3 is ((n1 OP1 n2) OP2 n3). -/
theorem C7_equal_precedence_left_assoc (n1 n2 n3 : String) (op1 op2 : Token)
    (h1 : op1 ∈ binaryOpTokens) (h2 : op2 ∈ binaryOpTokens)
    (hp : precedencesLookup op1.type = precedencesLookup op2.type) :
    (parseExpressionF 20 LOWEST (newParserFromTokens
      [identToken n1, op1, identToken n2, op2, identToken n3])).1 =
    .infixE op2 (.infixE op1 (identE n1) op1.literal (identE n2))
      op2.literal (identE n3) := by
  fin_cases h1 <;> fin_cases h2 <;> first
    | rfl
    | (exfalso; revert hp; decide)

/-- Witness for C7 at a + b - c. -/
theorem C7_equal_precedence_left_assoc_witness :
    (parseExpressionF 20 LOWEST (newParserFromTokens
      [identToken "a", ⟨token.PLUS, "+"⟩, identToken "b", ⟨token.MINUS, "-"⟩,
       identToken "c"])).1 =
    .infixE ⟨token.MINUS, "-"⟩
      (.infixE ⟨token.PLUS, "+"⟩ (identE "a") "+" (identE "b")) "-" (identE "c") :=
  C7_equal_precedence_left_assoc "a" "b" "c" ⟨token.PLUS, "+"⟩ ⟨token.MINUS, "-"⟩
    (by decide) (by decide) rfl

/-- C8: push on an Array returns a fresh Array holding exactly the
original elements followed by the new one, its length is the original
length plus one (also as observed through the len builtin), and the
input array is untouched: the result is built from a copy, and the
model input, being a value, inspects identically before and after. -/
theorem C8_push_appends_and_preserves_input (elems : List Object) (x : Object) :
    applyBuiltinFn .pushB [.arrayObj elems, x] = .arrayObj (elems ++ [x]) ∧
    (elems ++ [x]).length = elems.length + 1 ∧
    builtinLen [applyBuiltinFn .pushB [.arrayObj elems, x]] =
      .integer ((elems.length : Int) + 1) ∧
    inspectObj dpId (.arrayObj elems) = inspectObj dpId (.arrayObj elems) := by
  refine ⟨rfl, by simp, ?_, rfl⟩
  simp only [applyBuiltinFn, builtinPush, builtinLen]
  congr 1
  simp

/-- C9: calling a user-defined function with fewer arguments than
parameters is not checked and produces no Error value: the positional
binding loop reaches an out-of-range argument access (a runtime panic,
not a Monkey Error), and it stays in range exactly when the argument
count is at least the parameter count. -/
theorem C9_short_args_out_of_range (ep : PairChooser) (fuel : Nat)
    (params : List Identifier) (body : Block) (fnEnv : Env) (args : List Object) :
    (args.length < params.length →
      extendFunctionEnvF params fnEnv args =
        Except.error (.goPanic "runtime error: index out of range") ∧
      applyFunctionF ep (fuel + 1) (.function params body fnEnv) args =
        Except.error (.goPanic "runtime error: index out of range")) ∧
    (params.length ≤ args.length →
      ∃ env2, extendFunctionEnvF params fnEnv args = Except.ok env2) := by
  constructor
  · intro h
    have hb := bindParams_short params args (NewEnclosedEnvironment fnEnv) h
    constructor
    · exact hb
    · simp only [applyFunctionF, extendFunctionEnvF] at *
      rw [hb]
      rfl
  · intro h
    exact bindParams_ok params args (NewEnclosedEnvironment fnEnv) h

/-- Witness for C9: one parameter, zero arguments panics; one parameter,
one argument binds. -/
theorem C9_short_args_out_of_range_witness :
    (extendFunctionEnvF [xParam] NewEnvironment [] =
      Except.error (.goPanic "runtime error: index out of range")) ∧
    (∃ env2, extendFunctionEnvF [xParam] NewEnvironment [Object.integer 1] =
      Except.ok env2) :=
  ⟨((C9_short_args_out_of_range epId 5 [xParam] innerBlock NewEnvironment []).1
      (by decide)).1,
   (C9_short_args_out_of_range epId 5 [xParam] innerBlock NewEnvironment
      [Object.integer 1]).2 (by decide)⟩

/-- C10: for a call expression whose callee token literal is quote, the
evaluator reads the first argument with no arity check: with zero
arguments the argument access is out of range (a runtime panic, not an
Error value), and with at least one argument only the first argument is
passed to the quote special form. -/
theorem C10_quote_reads_first_arg_unchecked (ep : PairChooser) (fuel : Nat)
    (env : Env) (tok : Token) (fn : Expression) (hq : fn.tokenLiteral = "quote") :
    evalN ep (fuel + 1) (.expr (.callE tok fn [])) env =
      Except.error (.goPanic "runtime error: index out of range") ∧
    ∀ (a : Expression) (rest : List Expression),
      evalN ep (fuel + 1) (.expr (.callE tok fn (a :: rest))) env =
        Except.map (fun q => (q, env)) (quoteF ep fuel a env) := by
  constructor
  · simp only [evalN, hq]
    rfl
  · intro a rest
    simp only [evalN, hq]
    cases quoteF ep fuel a env <;> rfl

/-- Witness for C10: quote() with zero arguments panics; quote(5) yields
the quoted node. -/
theorem C10_quote_reads_first_arg_unchecked_witness :
    evalN epId 20 (.expr (.callE ⟨token.LPAREN, "("⟩ (identE "quote") []))
      NewEnvironment = Except.error (.goPanic "runtime error: index out of range") ∧
    evalN epId 20 (.expr (.callE ⟨token.LPAREN, "("⟩ (identE "quote") [intE 5]))
      NewEnvironment =
      Except.map (fun q => (q, NewEnvironment)) (quoteF epId 19 (intE 5) NewEnvironment) :=
  ⟨(C10_quote_reads_first_arg_unchecked epId 19 NewEnvironment ⟨token.LPAREN, "("⟩
      (identE "quote") rfl).1,
   (C10_quote_reads_first_arg_unchecked epId 19 NewEnvironment ⟨token.LPAREN, "("⟩
      (identE "quote") rfl).2 (intE 5) []⟩

end GoMonkey
